import Mathlib

/-!
Shallow embedding of the mongoquery matching engine
(src/mongoquery/__init__.py) and verification of its specification.

Modelling conventions:
* Python values that can appear in documents and query conditions are the
  inductive type MQ.Value: None, bool, int, float (modelled as a rational,
  which captures the ordering and cross-type numeric equality the engine
  relies on), str, list, and dict (an association list with string keys,
  as produced by JSON-style deserialisation; genuine Python dicts have
  unique keys).
* Fallible Python code is modelled in the Except monad over MQ.PyErr,
  which distinguishes the exception classes the source can raise:
  QueryError (the MatchError of the spec), TypeError, IndexError,
  KeyError, ValueError, AttributeError, ZeroDivisionError and
  NotImplementedError.  An AttributeError reaching the try/except in
  Query._process_condition is converted to a QueryError exactly as in the
  source.
* The re module is external to the repository; the compiled-pattern
  search re.search(pattern, entry, flags) is abstracted as a parameter
  "research : String -> String -> String -> Except Unit Bool" taking the
  pattern, the flag characters and the subject; an error models a pattern
  that fails to compile.  The shape check on the Mongo regex literal
  (the Python regex "\A/(.+)/([imsx]{,4})\Z" with DOTALL) is modelled
  concretely in parseRegexLit.
* Python int() applied to a path segment is modelled for optional
  surrounding spaces, an optional sign, and ASCII digits (underscore
  digit grouping and non-ASCII digits are outside the model).
* getattr(self, "_" + name) is modelled by the list findOp of the
  underscore-prefixed attributes of the Query class itself; dunder
  attributes inherited from object (reachable only through operator
  keys of the shape "$_xxx__") are outside the model.
-/

namespace MQ

/-- Python exception classes that the matching engine can raise. -/
inductive PyErr where
  | queryError (msg : String)
  | typeError
  | indexError
  | keyError
  | valueError
  | attributeError
  | zeroDivisionError
  | notImplementedError
deriving Repr, DecidableEq

/-- Dynamically typed Python values: documents and conditions. -/
inductive Value where
  | null
  | bool (b : Bool)
  | int (n : Int)
  | float (q : Rat)
  | str (s : String)
  | list (xs : List Value)
  | dict (ps : List (String × Value))
deriving Repr

/-- Numeric view of a value: isinstance(x, Number) together with the
numeric value used by comparisons (bool counts as numeric, True being 1
and False 0). -/
def numVal : Value → Option Rat
  | .bool b => some (cond b 1 0)
  | .int n => some (n : Rat)
  | .float q => some q
  | _ => none

/-- Python truthiness of a value. -/
def pyTruthy : Value → Bool
  | .null => false
  | .bool b => b
  | .int n => n != 0
  | .float q => q != 0
  | .str s => match s.data with | [] => false | _ => true
  | .list xs => match xs with | [] => false | _ => true
  | .dict ps => match ps with | [] => false | _ => true

/-- First-match lookup in an association list (Python dict indexing for
dicts with unique keys). -/
def lookupStr : List (String × Value) → String → Option Value
  | [], _ => none
  | (k, v) :: rest, key => if k = key then some v else lookupStr rest key

mutual

/-- Python equality between values: numbers (bool, int, float) compare by
numeric value, strings by content, lists elementwise, dicts by keys and
values (order-insensitively), and values of unrelated types are unequal.
Defined mutually with its list and dict specialisations. -/
def pyEq : Value → Value → Bool
  | .null, .null => true
  | .str a, .str b => a = b
  | .list xs, .list ys => pyEqList xs ys
  | .dict ps, .dict qs => ps.length = qs.length && pyEqDictSub ps qs
  | a, b =>
    match numVal a, numVal b with
    | some x, some y => x = y
    | _, _ => false

/-- Elementwise Python equality of two lists. -/
def pyEqList : List Value → List Value → Bool
  | [], [] => true
  | x :: xs, y :: ys => pyEq x y && pyEqList xs ys
  | _, _ => false

/-- Every pair of the first dict is present (up to Python equality of the
values) in the second dict. -/
def pyEqDictSub : List (String × Value) → List (String × Value) → Bool
  | [], _ => true
  | (k, v) :: rest, qs =>
    (match lookupStr qs k with
     | some w => pyEq v w
     | none => false) && pyEqDictSub rest qs

end

/-- Python inequality. -/
def pyNe (a b : Value) : Bool := ! pyEq a b

/-- Substring test on character lists: Python "t in s" for strings. -/
def substrB (t s : List Char) : Bool :=
  (List.range (s.length + 1)).any (fun i => t.isPrefixOf (s.drop i))

/-- Python membership "x in cont".  Lists test elementwise equality,
strings test substring containment (raising TypeError for a non-string
left operand), dicts test key membership (raising TypeError for an
unhashable left operand; non-string hashable values never match the
string keys), and other right operands raise TypeError. -/
def pyIn (x cont : Value) : Except PyErr Bool :=
  match cont with
  | .list ys => .ok (ys.any (fun y => pyEq x y))
  | .str s =>
    match x with
    | .str t => .ok (substrB t.data s.data)
    | _ => .error .typeError
  | .dict ps =>
    match x with
    | .list _ => .error .typeError
    | .dict _ => .error .typeError
    | .str t => .ok (ps.any (fun kv => kv.1 = t))
    | _ => .ok false
  | _ => .error .typeError

/-- Python iteration "for x in v": lists yield their elements, dicts
their keys, strings their characters (as one-character strings); other
values raise TypeError. -/
def pyIter : Value → Except PyErr (List Value)
  | .list xs => .ok xs
  | .dict ps => .ok (ps.map (fun kv => Value.str kv.1))
  | .str s => .ok (s.data.map (fun ch => Value.str (String.mk [ch])))
  | _ => .error .typeError

/-- Python v.items(): pairs of a dict; anything else raises
AttributeError. -/
def pyItems : Value → Except PyErr (List (String × Value))
  | .dict ps => .ok ps
  | _ => .error .attributeError

/-- Python v[0]: head of a list or string (IndexError when empty), a
KeyError on a string-keyed dict, TypeError otherwise. -/
def pySub0 : Value → Except PyErr Value
  | .list [] => .error .indexError
  | .list (x :: _) => .ok x
  | .str s =>
    match s.data with
    | [] => .error .indexError
    | ch :: _ => .ok (.str (String.mk [ch]))
  | .dict _ => .error .keyError
  | _ => .error .typeError

/-- Python v[1]: second element of a list or string (IndexError when too
short), a KeyError on a string-keyed dict, TypeError otherwise. -/
def pySub1 : Value → Except PyErr Value
  | .list (_ :: x :: _) => .ok x
  | .list _ => .error .indexError
  | .str s =>
    match s.data with
    | _ :: ch :: _ => .ok (.str (String.mk [ch]))
    | _ => .error .indexError
  | .dict _ => .error .keyError
  | _ => .error .typeError

/-- Python v[1:]: tail slice of a list or string; TypeError otherwise. -/
def pyTail : Value → Except PyErr Value
  | .list xs => .ok (.list xs.tail)
  | .str s => .ok (.str (String.mk s.data.tail))
  | _ => .error .typeError

/-- Value of a decimal digit character, none for non-digits. -/
def digitVal (c : Char) : Option Nat :=
  if '0' ≤ c ∧ c ≤ '9' then some (c.toNat - '0'.toNat) else none

/-- Numeric value of a nonempty all-digit character list. -/
def digitsVal (cs : List Char) : Option Nat :=
  match cs with
  | [] => none
  | _ =>
    cs.foldl
      (fun acc c =>
        match acc, digitVal c with
        | some a, some d => some (a * 10 + d)
        | _, _ => none)
      (some 0)

/-- Python int() on a string, modelled for optional surrounding spaces,
an optional sign and ASCII digits (underscore grouping and non-ASCII
digits are outside the model); none models a ValueError. -/
def parseInt (cs : List Char) : Option Int :=
  let t := ((cs.dropWhile (fun c => c = ' ')).reverse.dropWhile
    (fun c => c = ' ')).reverse
  match t with
  | '-' :: ds => (digitsVal ds).map (fun n => -(n : Int))
  | '+' :: ds => (digitsVal ds).map (fun n => (n : Int))
  | ds => (digitsVal ds).map (fun n => (n : Int))

/-- Python int() on an arbitrary value: ints are returned as is, bools
as 0 or 1, floats truncate toward zero, strings parse (ValueError on
failure), and other values raise TypeError. -/
def pyToInt : Value → Except PyErr Int
  | .int n => .ok n
  | .bool b => .ok (cond b 1 0)
  | .float q => .ok (if q ≥ 0 then q.floor else -((-q).floor))
  | .str s =>
    match parseInt s.data with
    | some i => .ok i
    | none => .error .valueError
  | _ => .error .typeError

/-- Python list indexing with negative-index support: xs[i] is defined
for -len <= i < len, with negative i counting from the end. -/
def pyListGet (xs : List Value) (i : Int) : Option Value :=
  if 0 ≤ i ∧ i < xs.length then xs.get? i.toNat
  else if -(xs.length : Int) ≤ i ∧ i < 0 then xs.get? (xs.length + i).toNat
  else none

/-- Python str.split(".") on the character list of a key. -/
def splitDots : List Char → List (List Char)
  | [] => [[]]
  | c :: cs =>
    if c = '.' then [] :: splitDots cs
    else
      match splitDots cs with
      | s :: rest => (c :: s) :: rest
      | [] => [[c]]

/-- The field path of a plain condition key: operator.split("."). -/
def splitPath (k : String) : List String :=
  (splitDots k.data).map String.mk

/-- Python a % b for numbers: result has the sign of the divisor, as for
both int and float operands; 0 divisor raises ZeroDivisionError and a
non-numeric operand raises TypeError (the string-formatting meaning of
% on a string left operand is outside the model). -/
def pyModV (a b : Value) : Except PyErr Rat :=
  match numVal a, numVal b with
  | some x, some y =>
    if y = 0 then .error .zeroDivisionError
    else .ok (x - y * ((x / y).floor : Rat))
  | _, _ => .error .typeError

/-- Query._gt: isinstance(entry, Number) and entry > condition.  A
non-numeric entry short-circuits to False before the comparison; a
numeric entry compared against a non-numeric condition raises TypeError,
as Python 3 ordering between a number and a non-number does. -/
def gtOp (c e : Value) : Except PyErr Bool :=
  match numVal e with
  | none => .ok false
  | some qe =>
    match numVal c with
    | some qc => .ok (decide (qe > qc))
    | none => .error .typeError

/-- Query._gte, with the same shape as Query._gt. -/
def gteOp (c e : Value) : Except PyErr Bool :=
  match numVal e with
  | none => .ok false
  | some qe =>
    match numVal c with
    | some qc => .ok (decide (qe ≥ qc))
    | none => .error .typeError

/-- Query._lt, with the same shape as Query._gt. -/
def ltOp (c e : Value) : Except PyErr Bool :=
  match numVal e with
  | none => .ok false
  | some qe =>
    match numVal c with
    | some qc => .ok (decide (qe < qc))
    | none => .error .typeError

/-- Query._lte, with the same shape as Query._gt. -/
def lteOp (c e : Value) : Except PyErr Bool :=
  match numVal e with
  | none => .ok false
  | some qe =>
    match numVal c with
    | some qc => .ok (decide (qe ≤ qc))
    | none => .error .typeError

/-- Query._mod: entry % condition[0] == condition[1], with Python
evaluation order (the subscript condition[0] first, then the modulo,
then condition[1]). -/
def modOp (c e : Value) : Except PyErr Bool :=
  match pySub0 c with
  | .error er => .error er
  | .ok d =>
    match pyModV e d with
    | .error er => .error er
    | .ok m =>
      match pySub1 c with
      | .error er => .error er
      | .ok r => .ok (pyEq (.float m) r)

/-- The type check for one known BSON code of Query._type:
type(entry) == bson_type[code].  Code 5 (bytearray) can match no value
of the document model. -/
def typeCode (n : Int) (e : Value) : Except PyErr Bool :=
  match n with
  | 1 => .ok (match e with | .float _ => true | _ => false)
  | 2 | 7 | 9 | 11 | 13 | 15 => .ok (match e with | .str _ => true | _ => false)
  | 3 => .ok (match e with | .dict _ => true | _ => false)
  | 4 => .ok (match e with | .list _ => true | _ => false)
  | 5 => .ok false
  | 8 => .ok (match e with | .bool _ => true | _ => false)
  | 10 => .ok (match e with | .null => true | _ => false)
  | 16 | 17 | 18 => .ok (match e with | .int _ => true | _ => false)
  | _ => .error (.queryError "$type has been used with unknown type")

/-- Query._type: membership of the condition in the integer-keyed
bson_type dict follows Python hashing, so bool and float conditions that
equal a known integer code select that code, unhashable conditions
(lists, dicts) raise TypeError, and any other condition is an unknown
type (QueryError). -/
def typeOp (c e : Value) : Except PyErr Bool :=
  match c with
  | .list _ => .error .typeError
  | .dict _ => .error .typeError
  | _ =>
    match numVal c with
    | some q => if q.den = 1 then typeCode q.num e else
        .error (.queryError "$type has been used with unknown type")
    | none => .error (.queryError "$type has been used with unknown type")

/-- Query._size: the condition must be exactly an int (bool is rejected
by the type(condition) != int test); a list entry compares its length,
any other entry gives False. -/
def sizeOp (c e : Value) : Except PyErr Bool :=
  match c with
  | .int n =>
    match e with
    | .list xs => .ok (decide ((xs.length : Int) = n))
    | _ => .ok false
  | _ => .error (.queryError "$size has been attributed incorrect argument")

/-- The shape check of Query._regex on the condition string: the Python
regex is re.match of the pattern backslash-A/(.+)/([imsx]-0-to-4)
backslash-Z under DOTALL, so the literal must start with a slash and
its last slash must leave a nonempty pattern before it and at most four
flag characters from i, m, s, x after it.  Returns the pattern and the
flag characters. -/
def parseRegexLit (s : String) : Option (String × String) :=
  match s.data with
  | '/' :: rest =>
    let r := rest.reverse
    let flagsRev := r.takeWhile (fun c => c ≠ '/')
    if flagsRev.length = r.length then none
    else
      let pat := (r.drop (flagsRev.length + 1)).reverse
      let flags := flagsRev.reverse
      if pat ≠ [] ∧ flags.length ≤ 4 ∧
          flags.all (fun c => c = 'i' ∨ c = 'm' ∨ c = 's' ∨ c = 'x') then
        some (String.mk pat, String.mk flags)
      else none
  | _ => none

/-- Query._exists and Query._comment are Query._noop. -/
def noopOp (_ _ : Value) : Except PyErr Bool := .ok true

/-- Query._options, Query._text and Query._where are
Query._not_implemented. -/
def notImplementedOp (_ _ : Value) : Except PyErr Bool :=
  .error .notImplementedError

/-- The key starts with the operator marker: operator.startswith(on the
dollar sign). -/
def isOpKey (k : String) : Bool :=
  match k.data with
  | c :: _ => c = '$'
  | [] => false

/-- The operator names for which getattr(self, underscore + name[1:])
succeeds on a Query instance: the documented operator table together
with the other underscore-prefixed attributes of the class (dispatch
resolves those too, which is why keys such as the dollar-prefixed match
or noop do not raise).  Dunder attributes inherited from object are
outside the model. -/
def findOp (k : String) : Bool :=
  k = "$gt" ∨ k = "$gte" ∨ k = "$in" ∨ k = "$lt" ∨ k = "$lte" ∨
  k = "$ne" ∨ k = "$nin" ∨ k = "$and" ∨ k = "$nor" ∨ k = "$not" ∨
  k = "$or" ∨ k = "$type" ∨ k = "$exists" ∨ k = "$mod" ∨ k = "$regex" ∨
  k = "$options" ∨ k = "$text" ∨ k = "$where" ∨ k = "$all" ∨
  k = "$elemMatch" ∨ k = "$size" ∨ k = "$comment" ∨
  k = "$not_implemented" ∨ k = "$noop" ∨ k = "$match" ∨ k = "$extract" ∨
  k = "$process_condition" ∨ k = "$is_array_op" ∨ k = "$definition"

/-- Query._is_array_op. -/
def isArrayOp (k : String) : Bool :=
  k = "$all" ∨ k = "$elemMatch" ∨ k = "$size"

/-- The presence gate of Query._process_condition for a plain key: when
the sub-condition is a dict containing a dollar-exists key, compare its
value against (key in entry) with Python equality; ok true means the
gate fails and the condition is False. -/
def existsCheck (k : String) (c e : Value) : Except PyErr Bool :=
  match c with
  | .dict ps =>
    match lookupStr ps "$exists" with
    | some x =>
      match pyIn (.str k) e with
      | .error er => .error er
      | .ok present => .ok (pyNe x (.bool present))
    | none => .ok false
  | _ => .ok false

/-- Error-propagating map used for the distribution branch of
Query._extract (a Python list comprehension: left to right, the first
error propagates). -/
def mapME {α : Type} : List α → (α → Except PyErr Value) → Except PyErr (List Value)
  | [], _ => .ok []
  | x :: xs, f =>
    match f x with
    | .error er => .error er
    | .ok v =>
      match mapME xs f with
      | .error er => .error er
      | .ok vs => .ok (v :: vs)

/-- Error-propagating short-circuit conjunction over a list (Python
all() over a generator). -/
def allE {α : Type} : List α → (α → Except PyErr Bool) → Except PyErr Bool
  | [], _ => .ok true
  | x :: xs, f =>
    match f x with
    | .error er => .error er
    | .ok false => .ok false
    | .ok true => allE xs f

/-- Error-propagating short-circuit disjunction over a list (Python
any() over a generator). -/
def anyE {α : Type} : List α → (α → Except PyErr Bool) → Except PyErr Bool
  | [], _ => .ok false
  | x :: xs, f =>
    match f x with
    | .error er => .error er
    | .ok true => .ok true
    | .ok false => anyE xs f

/-- Query._extract on a split field path.  An empty path or a None
entry returns the entry; a list entry indexes when the head segment
parses as an integer (IndexError is not caught) and otherwise
distributes the full path over the elements; a dict entry descends into
a present key and otherwise returns itself; any other entry evaluates
path[0] in entry, which raises TypeError for scalars, and for a string
entry containing the segment the subscript entry[segment] raises
TypeError. -/
def extractV (e : Value) (path : List String) : Except PyErr Value :=
  match path with
  | [] => .ok e
  | seg :: rest =>
    match e with
    | .null => .ok .null
    | .list xs =>
      match parseInt seg.data with
      | some i =>
        match pyListGet xs i with
        | some x => extractV x rest
        | none => .error .indexError
      | none =>
        match mapME xs.attach (fun p => extractV p.1 (seg :: rest)) with
        | .error er => .error er
        | .ok vs => .ok (.list vs)
    | .dict ps =>
      match lookupStr ps seg with
      | some v => extractV v rest
      | none => .ok e
    | .str s => if substrB seg.data s.data then .error .typeError else .ok e
    | _ => .error .typeError
termination_by (path.length, sizeOf e)
decreasing_by
  · apply Prod.Lex.left
    simp
  · apply Prod.Lex.right
    have := List.sizeOf_lt_of_mem p.2
    simp only [Value.list.sizeOf_spec]
    omega
  · apply Prod.Lex.left
    simp

/-- Query._extract called through operator dispatch (the accidental
operator key dollar-extract), where the condition becomes the entry and
the document value becomes the path.  Faithful to the source with
Python subscripting, int() coercion and slicing on a dynamically typed
path. -/
def extractDyn (e path : Value) : Except PyErr Value :=
  if pyTruthy path = false then .ok e
  else
    match e with
    | .null => .ok .null
    | .list xs =>
      match pySub0 path with
      | .error er => .error er
      | .ok p0 =>
        match pyToInt p0 with
        | .error .valueError =>
          match mapME xs.attach (fun p => extractDyn p.1 path) with
          | .error er => .error er
          | .ok vs => .ok (.list vs)
        | .error er => .error er
        | .ok i =>
          match h : pyListGet xs i with
          | none => .error .indexError
          | some x =>
            match pyTail path with
            | .error er => .error er
            | .ok rest => extractDyn x rest
    | .dict ps =>
      match pySub0 path with
      | .error er => .error er
      | .ok p0 =>
        match pyIn p0 (.dict ps) with
        | .error er => .error er
        | .ok true =>
          match p0 with
          | .str s =>
            match h : lookupStr ps s with
            | some v =>
              match pyTail path with
              | .error er => .error er
              | .ok rest => extractDyn v rest
            | none => .error .keyError
          | _ => .error .keyError
        | .ok false => .ok e
    | .str s =>
      match pySub0 path with
      | .error er => .error er
      | .ok p0 =>
        match pyIn p0 (.str s) with
        | .error er => .error er
        | .ok true => .error .typeError
        | .ok false => .ok e
    | _ =>
      match pySub0 path with
      | .error er => .error er
      | .ok _ => .error .typeError
termination_by sizeOf e
decreasing_by
  · have := List.sizeOf_lt_of_mem p.2
    simp only [Value.list.sizeOf_spec]
    omega
  · have hx : x ∈ xs := by
      unfold pyListGet at h
      split_ifs at h <;> exact List.get?_mem h
    have := List.sizeOf_lt_of_mem hx
    simp only [Value.list.sizeOf_spec]
    omega
  · have hv : sizeOf v < sizeOf ps := by
      clear * - h
      induction ps with
      | nil => simp [lookupStr] at h
      | cons kv rest ih =>
        unfold lookupStr at h
        by_cases hk : kv.1 = s
        · rw [if_pos hk] at h
          cases h
          cases kv with
          | mk a b =>
            simp only [List.cons.sizeOf_spec, Prod.mk.sizeOf_spec]
            omega
        · rw [if_neg hk] at h
          have := ih h
          simp only [List.cons.sizeOf_spec]
          omega
    simp only [Value.dict.sizeOf_spec]
    omega

/-- Query._regex.  The entry-type test comes first (a non-string entry
gives False before the condition is examined); then the condition must
be a string (TypeError from re.match is converted to a QueryError),
must have the Mongo literal shape, and finally re.search runs, any of
its exceptions being converted to a QueryError.  The compiled-pattern
search itself is external (the re module) and is abstracted by the
research parameter. -/
def regexOp (research : String → String → String → Except Unit Bool)
    (c e : Value) : Except PyErr Bool :=
  match e with
  | .str es =>
    match c with
    | .str cs =>
      match parseRegexLit cs with
      | some (pat, flags) =>
        match research pat flags es with
        | .ok b => .ok b
        | .error _ => .error (.queryError "regex failed to execute")
      | none =>
        .error (.queryError "regex is not using a known regular expression syntax")
    | _ =>
      .error (.queryError "regex is not a regular expression and should be a string")
  | _ => .ok false

/-- Error-propagating sequencing (Python exception flow through a
subexpression). -/
def bindE {β : Type} (r : Except PyErr β) (f : β → Except PyErr Bool) :
    Except PyErr Bool :=
  match r with
  | .error er => .error er
  | .ok v => f v

variable (research : String → String → String → Except Unit Bool)

mutual

/-- Query._match: a dict condition is the conjunction of
process_condition over its pairs; a non-dict condition is membership in
a list entry and Python equality otherwise. -/
def matchC (c e : Value) : Except PyErr Bool :=
  match c with
  | .dict ps => allE ps.attach (fun pp => processCondition pp.1.1 pp.1.2 e)
  | _ =>
    match e with
    | .list xs => .ok (xs.any (fun x => pyEq c x))
    | _ => .ok (pyEq c e)
termination_by (sizeOf c, 0, sizeOf e)
decreasing_by
  · simp_wf
    obtain ⟨⟨a, b⟩, hp⟩ := pp
    have := List.sizeOf_lt_of_mem hp
    simp only [Prod.mk.sizeOf_spec] at this
    simp only []
    omega

/-- Query._process_condition.  Operator keys resolve through findOp
(getattr); unresolved names and AttributeErrors escaping the operator
call become QueryErrors; a list entry distributes existentially over
its elements unless the operator is array-aware.  Plain keys run the
exists gate, then extract the dotted path and recurse. -/
def processCondition (k : String) (c e : Value) : Except PyErr Bool :=
  if isOpKey k then
    if findOp k then
      match
        (match e with
         | .list xs =>
           if isArrayOp k then evalOp k c e
           else anyE xs.attach (fun pe => evalOp k c pe.1)
         | _ => evalOp k c e) with
      | .error .attributeError =>
        .error (.queryError (k ++ " operator is not supported"))
      | r => r
    else .error (.queryError (k ++ " operator is not supported"))
  else
    match existsCheck k c e with
    | .error er => .error er
    | .ok true => .ok false
    | .ok false =>
      match extractV e (splitPath k) with
      | .error er => .error er
      | .ok ex => matchC c ex
termination_by (sizeOf c, 2, sizeOf e)
decreasing_by
  all_goals simp_wf
  all_goals exact Prod.Lex.right _ (Prod.Lex.left _ _ (by omega))

/-- The operator function selected by getattr, applied to (condition,
entry).  Includes the accidental operator names that resolve to other
underscore attributes of the class; the default arm is the
AttributeError of a failed getattr (unreachable behind findOp). -/
def evalOp (k : String) (c e : Value) : Except PyErr Bool :=
  match k with
  | "$gt" => gtOp c e
  | "$gte" => gteOp c e
  | "$lt" => ltOp c e
  | "$lte" => lteOp c e
  | "$in" => pyIn e c
  | "$nin" => bindE (pyIn e c) (fun b => .ok (!b))
  | "$ne" => .ok (pyNe e c)
  | "$and" =>
    match c with
    | .list xs => allE xs.attach (fun pa => matchC pa.1 e)
    | _ => .error (.queryError "$and has been attributed incorrect argument")
  | "$or" =>
    match c with
    | .list xs => anyE xs.attach (fun pa => matchC pa.1 e)
    | _ => .error (.queryError "$nor has been attributed incorrect argument")
  | "$nor" =>
    match c with
    | .list xs =>
      allE xs.attach (fun pa =>
        match matchC pa.1 e with
        | .error er => .error er
        | .ok b => .ok (!b))
    | _ => .error (.queryError "$nor has been attributed incorrect argument")
  | "$not" => bindE (matchC c e) (fun b => .ok (!b))
  | "$exists" => .ok true
  | "$comment" => .ok true
  | "$type" => typeOp c e
  | "$mod" => modOp c e
  | "$regex" => regexOp research c e
  | "$options" => .error .notImplementedError
  | "$text" => .error .notImplementedError
  | "$where" => .error .notImplementedError
  | "$all" =>
    match c with
    | .list xs => allE xs.attach (fun pa => matchC pa.1 e)
    | .dict ps => allE ps.attach (fun pk => matchC (Value.str pk.1.1) e)
    | .str s =>
      allE s.data.attach (fun pc => matchC (Value.str (String.mk [pc.1])) e)
    | _ => .error .typeError
  | "$elemMatch" =>
    bindE (pyIter e) (fun elems =>
      anyE elems (fun el =>
        match c with
        | .dict ps =>
          allE ps.attach (fun pq => processCondition pq.1.1 pq.1.2 el)
        | _ => .error .attributeError))
  | "$size" => sizeOp c e
  | "$match" => matchC c e
  | "$noop" => .ok true
  | "$not_implemented" => .error .notImplementedError
  | "$extract" => (extractDyn c e).map pyTruthy
  | "$process_condition" => .error .typeError
  | "$is_array_op" => .error .typeError
  | "$definition" => .error .typeError
  | _ => .error .attributeError
termination_by (sizeOf c, 1, sizeOf e)
decreasing_by
  all_goals simp_wf
  all_goals try exact Prod.Lex.right _ (Prod.Lex.left _ _ (by omega))
  all_goals try
    (have h2 := List.sizeOf_lt_of_mem pq.2
     obtain ⟨⟨a, b⟩, hq⟩ := pq
     simp only [Prod.mk.sizeOf_spec] at h2
     apply Prod.Lex.left
     simp only []
     omega)
  all_goals try
    (have h1 := List.sizeOf_lt_of_mem pk.2
     obtain ⟨⟨a, b⟩, hp⟩ := pk
     simp only [Prod.mk.sizeOf_spec] at h1
     apply Prod.Lex.left
     simp only []
     omega)
  all_goals try
    (have hlt := List.sizeOf_lt_of_mem pa.2
     apply Prod.Lex.left
     omega)
  all_goals
    (obtain ⟨ch, hch⟩ := pc
     have key : ∀ (u : String) (c0 : Char), c0 ∈ u.data →
         Prod.Lex (fun a₁ a₂ => a₁ < a₂)
           (Prod.Lex (fun a₁ a₂ => a₁ < a₂) fun a₁ a₂ => a₁ < a₂)
           (1 + (1 + (1 + (c0.toNat + 4) + 1)), 0, sizeOf e)
           (1 + sizeOf u, 1, sizeOf e) := by
       intro u c0 hmem
       have hs : sizeOf c0 = c0.toNat + 4 := by simp
       have h1 : ∀ l : List Char, c0 ∈ l → 2 + sizeOf c0 ≤ sizeOf l := by
         intro l
         induction l with
         | nil => intro hl; simp at hl
         | cons b t ih =>
           intro hl
           simp only [List.cons.sizeOf_spec]
           rcases List.mem_cons.mp hl with rfl | h2
           · have h3 : 1 ≤ sizeOf t := by
               cases t <;>
                 simp only [List.nil.sizeOf_spec, List.cons.sizeOf_spec] <;>
                 omega
             omega
           · have := ih h2
             omega
       have h2 := h1 u.data hmem
       have h4 : sizeOf u = 1 + sizeOf u.data := by
         cases u
         rfl
       rcases Nat.lt_or_ge (1 + (1 + (1 + (c0.toNat + 4) + 1))) (1 + sizeOf u)
         with h | h
       · exact Prod.Lex.left _ _ h
       · have heq : 1 + (1 + (1 + (c0.toNat + 4) + 1)) = 1 + sizeOf u := by
           omega
         rw [heq]
         exact Prod.Lex.right _ (Prod.Lex.left _ _ (by omega))
     exact key _ ch hch)


end

/-- Query.match: evaluate the stored definition against a document. -/
def matchQuery (definition document : Value) : Except PyErr Bool :=
  matchC research definition document

/-- A trivial instantiation of the abstract compiled-pattern search,
used to evaluate concrete queries whose execution never reaches
re.search. -/
def noRe : String → String → String → Except Unit Bool :=
  fun _ _ _ => .ok false

/-- The BSON type codes known to Query._type. -/
def knownCode (n : Int) : Bool :=
  n = 1 ∨ n = 2 ∨ n = 3 ∨ n = 4 ∨ n = 5 ∨ n = 7 ∨ n = 8 ∨ n = 9 ∨
  n = 10 ∨ n = 11 ∨ n = 13 ∨ n = 15 ∨ n = 16 ∨ n = 17 ∨ n = 18

mutual

/-- Conditions whose evaluation cannot raise against any entry
whatsoever: either a non-dict literal, or a dict of operator pairs from
the raise-free operator fragment. -/
def safeAny : Value → Bool
  | .dict ps => safePairsAny ps
  | _ => true

/-- All pairs of a dict condition are raise-free operator pairs. -/
def safePairsAny : List (String × Value) → Bool
  | [] => true
  | (k, v) :: rest => safeOpPair k v && safePairsAny rest

/-- The raise-free operator fragment: comparisons with a numeric
argument, ne, in and nin with a list argument, the logical combinators
over raise-free sub-conditions, exists and comment (no-ops under
operator dispatch), type with a known integer code, size with an int
argument, and all over raise-free sub-conditions. -/
def safeOpPair (k : String) (v : Value) : Bool :=
  if k = "$gt" ∨ k = "$gte" ∨ k = "$lt" ∨ k = "$lte" then (numVal v).isSome
  else if k = "$ne" ∨ k = "$exists" ∨ k = "$comment" then true
  else if k = "$in" ∨ k = "$nin" then
    (match v with | .list _ => true | _ => false)
  else if k = "$and" ∨ k = "$or" ∨ k = "$nor" then
    (match v with | .list xs => safeListAny xs | _ => false)
  else if k = "$not" then
    (match v with | .dict ps => safePairsAny ps | _ => true)
  else if k = "$type" then
    (match v with | .int n => knownCode n | _ => false)
  else if k = "$size" then (match v with | .int _ => true | _ => false)
  else if k = "$all" then
    (match v with | .list xs => safeListAny xs | _ => false)
  else false

/-- All members of a list are raise-free conditions. -/
def safeListAny : List Value → Bool
  | [] => true
  | x :: xs => safeAny x && safeListAny xs

end

mutual

/-- Conditions whose evaluation cannot raise against a dict entry:
raise-free operator pairs may additionally sit beside plain field keys
(dot-free, so extraction stays within the top-level dict) whose
sub-conditions are raise-free against any extracted value, and the
logical combinators recurse at the dict level. -/
def safeTop : Value → Bool
  | .dict ps => safePairsTop ps
  | _ => true

/-- All pairs of a dict condition are raise-free against dict entries. -/
def safePairsTop : List (String × Value) → Bool
  | [] => true
  | (k, v) :: rest => safeTopPair k v && safePairsTop rest

/-- One condition pair that is raise-free against dict entries. -/
def safeTopPair (k : String) (v : Value) : Bool :=
  if isOpKey k then
    if k = "$and" ∨ k = "$or" ∨ k = "$nor" then
      (match v with | .list xs => safeListTop xs | _ => false)
    else if k = "$not" then
      (match v with | .dict ps => safePairsTop ps | _ => true)
    else safeOpPair k v
  else (!(k.data.contains '.')) && safeAny v

/-- All members of a list are raise-free conditions against dict
entries. -/
def safeListTop : List Value → Bool
  | [] => true
  | x :: xs => safeTop x && safeListTop xs

end

/-- The condition is a dict. -/
def isDictB : Value → Bool
  | .dict _ => true
  | _ => false

/-! A fuelled, structurally recursive twin of the evaluator.  The twin
is kernel-computable, so concrete queries are evaluated by decide; the
soundness theorems below transport each computed result to the
well-founded evaluator. -/

/-- Fuelled allE: none propagates fuel exhaustion. -/
def allEF {α : Type} (f : α → Option (Except PyErr Bool)) :
    List α → Option (Except PyErr Bool)
  | [] => some (.ok true)
  | x :: xs =>
    match f x with
    | none => none
    | some (.error er) => some (.error er)
    | some (.ok false) => some (.ok false)
    | some (.ok true) => allEF f xs

/-- Fuelled anyE. -/
def anyEF {α : Type} (f : α → Option (Except PyErr Bool)) :
    List α → Option (Except PyErr Bool)
  | [] => some (.ok false)
  | x :: xs =>
    match f x with
    | none => none
    | some (.error er) => some (.error er)
    | some (.ok true) => some (.ok true)
    | some (.ok false) => anyEF f xs

/-- Fuelled mapME. -/
def mapMEF (f : Value → Option (Except PyErr Value)) :
    List Value → Option (Except PyErr (List Value))
  | [] => some (.ok [])
  | x :: xs =>
    match f x with
    | none => none
    | some (.error er) => some (.error er)
    | some (.ok v) =>
      match mapMEF f xs with
      | none => none
      | some (.error er) => some (.error er)
      | some (.ok vs) => some (.ok (v :: vs))

/-- Fuelled twin of Query._extract. -/
def extractF : Nat → Value → List String → Option (Except PyErr Value)
  | 0, _, _ => none
  | n + 1, e, path =>
    match path with
    | [] => some (.ok e)
    | seg :: rest =>
      match e with
      | .null => some (.ok .null)
      | .list xs =>
        match parseInt seg.data with
        | some i =>
          match pyListGet xs i with
          | some x => extractF n x rest
          | none => some (.error .indexError)
        | none =>
          match mapMEF (fun x => extractF n x (seg :: rest)) xs with
          | none => none
          | some (.error er) => some (.error er)
          | some (.ok vs) => some (.ok (.list vs))
      | .dict ps =>
        match lookupStr ps seg with
        | some v => extractF n v rest
        | none => some (.ok e)
      | .str s =>
        some (if substrB seg.data s.data then .error .typeError else .ok e)
      | _ => some (.error .typeError)

mutual

/-- Fuelled twin of Query._match. -/
def matchF (re : String → String → String → Except Unit Bool) :
    Nat → Value → Value → Option (Except PyErr Bool)
  | 0, _, _ => none
  | n + 1, c, e =>
    match c with
    | .dict ps => allEF (fun kv => pcF re n kv.1 kv.2 e) ps
    | _ =>
      some
        (match e with
         | .list xs => .ok (xs.any (fun x => pyEq c x))
         | _ => .ok (pyEq c e))

/-- Fuelled twin of Query._process_condition. -/
def pcF (re : String → String → String → Except Unit Bool) :
    Nat → String → Value → Value → Option (Except PyErr Bool)
  | 0, _, _, _ => none
  | n + 1, k, c, e =>
    if isOpKey k then
      if findOp k then
        match
          (match e with
           | .list xs =>
             if isArrayOp k then evalF re n k c e
             else anyEF (fun en => evalF re n k c en) xs
           | _ => evalF re n k c e) with
        | none => none
        | some (.error .attributeError) =>
          some (.error (.queryError (k ++ " operator is not supported")))
        | some r => some r
      else some (.error (.queryError (k ++ " operator is not supported")))
    else
      match existsCheck k c e with
      | .error er => some (.error er)
      | .ok true => some (.ok false)
      | .ok false =>
        match extractF n e (splitPath k) with
        | none => none
        | some (.error er) => some (.error er)
        | some (.ok ex) => matchF re n c ex

/-- Fuelled twin of the operator dispatch; names outside the table give
none, which the soundness theorem never consults (pcF guards dispatch
with findOp). -/
def evalF (re : String → String → String → Except Unit Bool) :
    Nat → String → Value → Value → Option (Except PyErr Bool)
  | 0, _, _, _ => none
  | n + 1, k, c, e =>
    match k with
    | "$gt" => some (gtOp c e)
    | "$gte" => some (gteOp c e)
    | "$lt" => some (ltOp c e)
    | "$lte" => some (lteOp c e)
    | "$in" => some (pyIn e c)
    | "$nin" => some (bindE (pyIn e c) (fun b => .ok (!b)))
    | "$ne" => some (.ok (pyNe e c))
    | "$and" =>
      match c with
      | .list xs => allEF (fun s => matchF re n s e) xs
      | _ =>
        some (.error (.queryError "$and has been attributed incorrect argument"))
    | "$or" =>
      match c with
      | .list xs => anyEF (fun s => matchF re n s e) xs
      | _ =>
        some (.error (.queryError "$nor has been attributed incorrect argument"))
    | "$nor" =>
      match c with
      | .list xs =>
        allEF (fun s =>
          match matchF re n s e with
          | none => none
          | some (.error er) => some (.error er)
          | some (.ok b) => some (.ok (!b))) xs
      | _ =>
        some (.error (.queryError "$nor has been attributed incorrect argument"))
    | "$not" =>
      match matchF re n c e with
      | none => none
      | some (.error er) => some (.error er)
      | some (.ok b) => some (.ok (!b))
    | "$exists" => some (.ok true)
    | "$comment" => some (.ok true)
    | "$type" => some (typeOp c e)
    | "$mod" => some (modOp c e)
    | "$regex" => some (regexOp re c e)
    | "$options" => some (.error .notImplementedError)
    | "$text" => some (.error .notImplementedError)
    | "$where" => some (.error .notImplementedError)
    | "$all" =>
      match c with
      | .list xs => allEF (fun it => matchF re n it e) xs
      | .dict ps => allEF (fun kv => matchF re n (.str kv.1) e) ps
      | .str s =>
        allEF (fun ch => matchF re n (.str (String.mk [ch])) e) s.data
      | _ => some (.error .typeError)
    | "$elemMatch" =>
      match pyIter e with
      | .error er => some (.error er)
      | .ok elems =>
        anyEF (fun el =>
          match c with
          | .dict ps => allEF (fun kv => pcF re n kv.1 kv.2 el) ps
          | _ => some (.error .attributeError)) elems
    | "$size" => some (sizeOp c e)
    | "$match" => matchF re n c e
    | "$noop" => some (.ok true)
    | "$not_implemented" => some (.error .notImplementedError)
    | "$extract" => some ((extractDyn c e).map pyTruthy)
    | "$process_condition" => some (.error .typeError)
    | "$is_array_op" => some (.error .typeError)
    | "$definition" => some (.error .typeError)
    | _ => none

end

/-- Decidable equality of evaluation outcomes, for concrete runs of the
fuelled twin. -/
instance : DecidableEq (Except PyErr Bool) := fun a b =>
  match a, b with
  | .error x, .error y =>
    if h : x = y then isTrue (by rw [h]) else isFalse (by simp [h])
  | .ok x, .ok y =>
    if h : x = y then isTrue (by rw [h]) else isFalse (by simp [h])
  | .error _, .ok _ => isFalse (by simp)
  | .ok _, .error _ => isFalse (by simp)

/-- The AttributeError-to-QueryError conversion of
Query._process_condition, as a function. -/
def attrConv (k : String) (r : Except PyErr Bool) : Except PyErr Bool :=
  match r with
  | .error .attributeError =>
    .error (.queryError (k ++ " operator is not supported"))
  | r => r

/-- The fuelled twin of attrConv. -/
def attrConvF (k : String) (r : Option (Except PyErr Bool)) :
    Option (Except PyErr Bool) :=
  match r with
  | none => none
  | some (.error .attributeError) =>
    some (.error (.queryError (k ++ " operator is not supported")))
  | some r => some r

/-- The entry is a direct literal key of the dict. -/
def hasKeyB (d : List (String × Value)) (k : String) : Bool :=
  d.any (fun kv => kv.1 = k)

/-- The value is a string. -/
def isStrB : Value → Bool
  | .str _ => true
  | _ => false

/-- A compiled-pattern search that matches everything, used to evaluate
regex examples whose pattern compiles and matches. -/
def reTrue : String → String → String → Except Unit Bool :=
  fun _ _ _ => .ok true

/-! Infrastructure lemmas: the attach wrappers used for termination are
semantically transparent. -/

theorem allE_map_eq {α β : Type} (g : α → β) (f : β → Except PyErr Bool) :
    ∀ xs : List α, allE (xs.map g) f = allE xs (fun x => f (g x)) := by
  intro xs
  induction xs with
  | nil => rfl
  | cons x t ih =>
    simp only [List.map_cons, allE]
    rw [ih]

theorem anyE_map_eq {α β : Type} (g : α → β) (f : β → Except PyErr Bool) :
    ∀ xs : List α, anyE (xs.map g) f = anyE xs (fun x => f (g x)) := by
  intro xs
  induction xs with
  | nil => rfl
  | cons x t ih =>
    simp only [List.map_cons, anyE]
    rw [ih]

theorem mapME_map_eq {α β : Type} (g : α → β) (f : β → Except PyErr Value) :
    ∀ xs : List α, mapME (xs.map g) f = mapME xs (fun x => f (g x)) := by
  intro xs
  induction xs with
  | nil => rfl
  | cons x t ih =>
    simp only [List.map_cons, mapME]
    rw [ih]

theorem allE_attach_sub {α : Type} (xs : List α)
    (g : {x // x ∈ xs} → Except PyErr Bool) (f : α → Except PyErr Bool)
    (h : ∀ p, g p = f p.1) : allE xs.attach g = allE xs f := by
  induction xs with
  | nil => rfl
  | cons x t ih =>
    rw [List.attach_cons]
    simp only [allE, h ⟨x, by simp⟩]
    rw [allE_map_eq]
    rw [ih (fun p => g ⟨p.1, by simp [p.2]⟩) (fun p => h _)]

theorem anyE_attach_sub {α : Type} (xs : List α)
    (g : {x // x ∈ xs} → Except PyErr Bool) (f : α → Except PyErr Bool)
    (h : ∀ p, g p = f p.1) : anyE xs.attach g = anyE xs f := by
  induction xs with
  | nil => rfl
  | cons x t ih =>
    rw [List.attach_cons]
    simp only [anyE, h ⟨x, by simp⟩]
    rw [anyE_map_eq]
    rw [ih (fun p => g ⟨p.1, by simp [p.2]⟩) (fun p => h _)]

theorem mapME_attach_sub (xs : List Value)
    (g : {x // x ∈ xs} → Except PyErr Value) (f : Value → Except PyErr Value)
    (h : ∀ p, g p = f p.1) : mapME xs.attach g = mapME xs f := by
  induction xs with
  | nil => rfl
  | cons x t ih =>
    rw [List.attach_cons]
    simp only [mapME, h ⟨x, by simp⟩]
    rw [mapME_map_eq]
    rw [ih (fun p => g ⟨p.1, by simp [p.2]⟩) (fun p => h _)]

/-! Clean equation lemmas for the evaluator: the attach wrappers and
dependent matches used for the termination argument are eliminated, so
that concrete queries can be evaluated by rewriting. -/


theorem extractV_nil (e : Value) : extractV e [] = .ok e := by
  simp [extractV]

theorem extractV_null (seg : String) (rest : List String) :
    extractV .null (seg :: rest) = .ok .null := by
  simp [extractV]

theorem extractV_list (seg : String) (rest : List String) (xs : List Value) :
    extractV (.list xs) (seg :: rest) =
      match parseInt seg.data with
      | some i =>
        (match pyListGet xs i with
         | some x => extractV x rest
         | none => .error .indexError)
      | none =>
        (match mapME xs (fun x => extractV x (seg :: rest)) with
         | .error er => .error er
         | .ok vs => .ok (.list vs)) := by
  rw [extractV]
  cases parseInt seg.data with
  | none =>
    have h2 := mapME_attach_sub xs
      (fun p => extractV p.1 (seg :: rest))
      (fun x => extractV x (seg :: rest)) (fun p => rfl)
    rw [h2]
  | some i => rfl

theorem extractV_dict (seg : String) (rest : List String)
    (ps : List (String × Value)) :
    extractV (.dict ps) (seg :: rest) =
      match lookupStr ps seg with
      | some v => extractV v rest
      | none => .ok (.dict ps) := by
  rw [extractV]

theorem extractV_str (seg : String) (rest : List String) (s : String) :
    extractV (.str s) (seg :: rest) =
      if substrB seg.data s.data then .error .typeError else .ok (.str s) := by
  rw [extractV]

theorem extractV_bool (seg : String) (rest : List String) (b : Bool) :
    extractV (.bool b) (seg :: rest) = .error .typeError := by
  rw [extractV] <;> simp

theorem extractV_int (seg : String) (rest : List String) (n : Int) :
    extractV (.int n) (seg :: rest) = .error .typeError := by
  rw [extractV] <;> simp

theorem extractV_float (seg : String) (rest : List String) (q : Rat) :
    extractV (.float q) (seg :: rest) = .error .typeError := by
  rw [extractV] <;> simp

set_option maxHeartbeats 4000000 in
/-- The one-step unfolding of the operator dispatch body. -/
theorem evalOp_eq (re : String → String → String → Except Unit Bool)
    (k : String) (c e : Value) :
    evalOp re k c e =
      match k with
        | "$gt" => gtOp c e
        | "$gte" => gteOp c e
        | "$lt" => ltOp c e
        | "$lte" => lteOp c e
        | "$in" => pyIn e c
        | "$nin" => bindE (pyIn e c) (fun b => .ok (!b))
        | "$ne" => .ok (pyNe e c)
        | "$and" =>
          match c with
          | .list xs => allE xs.attach (fun pa => matchC re pa.1 e)
          | _ => .error (.queryError "$and has been attributed incorrect argument")
        | "$or" =>
          match c with
          | .list xs => anyE xs.attach (fun pa => matchC re pa.1 e)
          | _ => .error (.queryError "$nor has been attributed incorrect argument")
        | "$nor" =>
          match c with
          | .list xs =>
            allE xs.attach (fun pa =>
              match matchC re pa.1 e with
              | .error er => .error er
              | .ok b => .ok (!b))
          | _ => .error (.queryError "$nor has been attributed incorrect argument")
        | "$not" => bindE (matchC re c e) (fun b => .ok (!b))
        | "$exists" => .ok true
        | "$comment" => .ok true
        | "$type" => typeOp c e
        | "$mod" => modOp c e
        | "$regex" => regexOp re c e
        | "$options" => .error .notImplementedError
        | "$text" => .error .notImplementedError
        | "$where" => .error .notImplementedError
        | "$all" =>
          match c with
          | .list xs => allE xs.attach (fun pa => matchC re pa.1 e)
          | .dict ps => allE ps.attach (fun pk => matchC re (Value.str pk.1.1) e)
          | .str s =>
            allE s.data.attach (fun pc => matchC re (Value.str (String.mk [pc.1])) e)
          | _ => .error .typeError
        | "$elemMatch" =>
          bindE (pyIter e) (fun elems =>
            anyE elems (fun el =>
              match c with
              | .dict ps =>
                allE ps.attach (fun pq => processCondition re pq.1.1 pq.1.2 el)
              | _ => .error .attributeError))
        | "$size" => sizeOp c e
        | "$match" => matchC re c e
        | "$noop" => .ok true
        | "$not_implemented" => .error .notImplementedError
        | "$extract" => (extractDyn c e).map pyTruthy
        | "$process_condition" => .error .typeError
        | "$is_array_op" => .error .typeError
        | "$definition" => .error .typeError
        | _ => .error .attributeError := by
  rw [evalOp.eq_def]

/-- Pointwise-equal bodies give equal allE runs. -/
theorem allE_congr {α : Type} (xs : List α) (f g : α → Except PyErr Bool)
    (h : ∀ x ∈ xs, f x = g x) : allE xs f = allE xs g := by
  induction xs with
  | nil => rfl
  | cons x t ih =>
    simp only [allE, h x (by simp)]
    rw [ih (fun y hy => h y (by simp [hy]))]

/-- Pointwise-equal bodies give equal anyE runs. -/
theorem anyE_congr {α : Type} (xs : List α) (f g : α → Except PyErr Bool)
    (h : ∀ x ∈ xs, f x = g x) : anyE xs f = anyE xs g := by
  induction xs with
  | nil => rfl
  | cons x t ih =>
    simp only [anyE, h x (by simp)]
    rw [ih (fun y hy => h y (by simp [hy]))]

/-- Query._match on a dict condition: conjunction over the pairs. -/
theorem matchC_dict (re : String → String → String → Except Unit Bool)
    (ps : List (String × Value)) (e : Value) :
    matchC re (.dict ps) e =
      allE ps (fun kv => processCondition re kv.1 kv.2 e) := by
  rw [matchC]
  exact allE_attach_sub ps _ _ (fun p => rfl)

/-- Query._match on a non-dict condition: membership in a list entry,
Python equality otherwise. -/
theorem matchC_lit (re : String → String → String → Except Unit Bool)
    (c e : Value) (h : isDictB c = false) :
    matchC re c e =
      match e with
      | .list ys => .ok (ys.any (fun y => pyEq c y))
      | _ => .ok (pyEq c e) := by
  cases c <;> first
    | (simp [isDictB] at h; done)
    | (cases e <;> (rw [matchC] <;> simp))

/-- Query._process_condition on a resolvable operator key: distribute a
list entry over the elements unless the operator is array-aware, and
convert an escaping AttributeError to a QueryError. -/
theorem pc_op (re : String → String → String → Except Unit Bool)
    (k : String) (c e : Value) (h1 : isOpKey k = true)
    (h2 : findOp k = true) :
    processCondition re k c e =
      match
        (match e with
         | .list xs =>
           if isArrayOp k then evalOp re k c e
           else anyE xs (fun en => evalOp re k c en)
         | _ => evalOp re k c e) with
      | .error .attributeError =>
        .error (.queryError (k ++ " operator is not supported"))
      | r => r := by
  cases e with
  | list xs =>
    rw [processCondition, if_pos h1, if_pos h2]
    rw [anyE_attach_sub xs _ (fun en => evalOp re k c en) (fun p => rfl)]
  | null => rw [processCondition, if_pos h1, if_pos h2] <;> simp
  | bool b => rw [processCondition, if_pos h1, if_pos h2] <;> simp
  | int n => rw [processCondition, if_pos h1, if_pos h2] <;> simp
  | float q => rw [processCondition, if_pos h1, if_pos h2] <;> simp
  | str s => rw [processCondition, if_pos h1, if_pos h2] <;> simp
  | dict ps => rw [processCondition, if_pos h1, if_pos h2] <;> simp

/-- Query._process_condition on an operator key that getattr cannot
resolve: the unsupported-operator QueryError. -/
theorem pc_unknown (re : String → String → String → Except Unit Bool)
    (k : String) (c e : Value) (h1 : isOpKey k = true)
    (h2 : findOp k = false) :
    processCondition re k c e =
      .error (.queryError (k ++ " operator is not supported")) := by
  cases e <;> (rw [processCondition, if_pos h1, if_neg (by simp [h2])] <;> simp)

/-- Query._process_condition on a plain field key: the exists gate, then
extraction of the dotted path, then recursion. -/
theorem pc_field (re : String → String → String → Except Unit Bool)
    (k : String) (c e : Value) (h1 : isOpKey k = false) :
    processCondition re k c e =
      match existsCheck k c e with
      | .error er => .error er
      | .ok true => .ok false
      | .ok false =>
        match extractV e (splitPath k) with
        | .error er => .error er
        | .ok ex => matchC re c ex := by
  cases e <;> (rw [processCondition, if_neg (by simp [h1])] <;> simp)

/-- The dollar-gt arm of the operator dispatch. -/
theorem evalOp_gt (re : String → String → String → Except Unit Bool)
    (c e : Value) : evalOp re "$gt" c e = gtOp c e := by
  rw [evalOp_eq]
  rfl

/-- The dollar-gte arm of the operator dispatch. -/
theorem evalOp_gte (re : String → String → String → Except Unit Bool)
    (c e : Value) : evalOp re "$gte" c e = gteOp c e := by
  rw [evalOp_eq]
  rfl

/-- The dollar-lt arm of the operator dispatch. -/
theorem evalOp_lt (re : String → String → String → Except Unit Bool)
    (c e : Value) : evalOp re "$lt" c e = ltOp c e := by
  rw [evalOp_eq]
  rfl

/-- The dollar-lte arm of the operator dispatch. -/
theorem evalOp_lte (re : String → String → String → Except Unit Bool)
    (c e : Value) : evalOp re "$lte" c e = lteOp c e := by
  rw [evalOp_eq]
  rfl

/-- The dollar-in arm of the operator dispatch. -/
theorem evalOp_in (re : String → String → String → Except Unit Bool)
    (c e : Value) : evalOp re "$in" c e = pyIn e c := by
  rw [evalOp_eq]
  rfl

/-- The dollar-nin arm of the operator dispatch. -/
theorem evalOp_nin (re : String → String → String → Except Unit Bool)
    (c e : Value) : evalOp re "$nin" c e = bindE (pyIn e c) (fun b => .ok (!b)) := by
  rw [evalOp_eq]
  rfl

/-- The dollar-ne arm of the operator dispatch. -/
theorem evalOp_ne (re : String → String → String → Except Unit Bool)
    (c e : Value) : evalOp re "$ne" c e = .ok (pyNe e c) := by
  rw [evalOp_eq]
  rfl

/-- The dollar-not arm of the operator dispatch. -/
theorem evalOp_not (re : String → String → String → Except Unit Bool)
    (c e : Value) : evalOp re "$not" c e = bindE (matchC re c e) (fun b => .ok (!b)) := by
  rw [evalOp_eq]
  rfl

/-- The dollar-exists arm of the operator dispatch. -/
theorem evalOp_exists (re : String → String → String → Except Unit Bool)
    (c e : Value) : evalOp re "$exists" c e = .ok true := by
  rw [evalOp_eq]
  rfl

/-- The dollar-comment arm of the operator dispatch. -/
theorem evalOp_comment (re : String → String → String → Except Unit Bool)
    (c e : Value) : evalOp re "$comment" c e = .ok true := by
  rw [evalOp_eq]
  rfl

/-- The dollar-type arm of the operator dispatch. -/
theorem evalOp_type (re : String → String → String → Except Unit Bool)
    (c e : Value) : evalOp re "$type" c e = typeOp c e := by
  rw [evalOp_eq]
  rfl

/-- The dollar-mod arm of the operator dispatch. -/
theorem evalOp_mod (re : String → String → String → Except Unit Bool)
    (c e : Value) : evalOp re "$mod" c e = modOp c e := by
  rw [evalOp_eq]
  rfl

/-- The dollar-regex arm of the operator dispatch. -/
theorem evalOp_regex (re : String → String → String → Except Unit Bool)
    (c e : Value) : evalOp re "$regex" c e = regexOp re c e := by
  rw [evalOp_eq]
  rfl

/-- The dollar-options arm of the operator dispatch. -/
theorem evalOp_options (re : String → String → String → Except Unit Bool)
    (c e : Value) : evalOp re "$options" c e = .error .notImplementedError := by
  rw [evalOp_eq]
  rfl

/-- The dollar-text arm of the operator dispatch. -/
theorem evalOp_text (re : String → String → String → Except Unit Bool)
    (c e : Value) : evalOp re "$text" c e = .error .notImplementedError := by
  rw [evalOp_eq]
  rfl

/-- The dollar-where arm of the operator dispatch. -/
theorem evalOp_where (re : String → String → String → Except Unit Bool)
    (c e : Value) : evalOp re "$where" c e = .error .notImplementedError := by
  rw [evalOp_eq]
  rfl

/-- The dollar-size arm of the operator dispatch. -/
theorem evalOp_size (re : String → String → String → Except Unit Bool)
    (c e : Value) : evalOp re "$size" c e = sizeOp c e := by
  rw [evalOp_eq]
  rfl

/-- The dollar-match arm of the operator dispatch. -/
theorem evalOp_match (re : String → String → String → Except Unit Bool)
    (c e : Value) : evalOp re "$match" c e = matchC re c e := by
  rw [evalOp_eq]
  rfl

/-- The dollar-noop arm of the operator dispatch. -/
theorem evalOp_noop (re : String → String → String → Except Unit Bool)
    (c e : Value) : evalOp re "$noop" c e = .ok true := by
  rw [evalOp_eq]
  rfl

/-- Query._all in its source shape: all items of the iterated condition
match the whole entry. -/
theorem evalOp_all (re : String → String → String → Except Unit Bool)
    (c e : Value) :
    evalOp re "$all" c e =
      match pyIter c with
      | .error er => .error er
      | .ok items => allE items (fun it => matchC re it e) := by
  rw [evalOp_eq]
  cases c with
  | list xs => exact allE_attach_sub xs _ _ (fun p => rfl)
  | dict ps =>
    exact (allE_attach_sub ps _
      (fun kv => matchC re (Value.str kv.1) e) (fun p => rfl)).trans
      (allE_map_eq (fun kv => Value.str kv.1)
        (fun it => matchC re it e) ps).symm
  | str s =>
    exact (allE_attach_sub s.data _
      (fun ch => matchC re (Value.str (String.mk [ch])) e)
      (fun p => rfl)).trans
      (allE_map_eq (fun ch => Value.str (String.mk [ch]))
        (fun it => matchC re it e) s.data).symm
  | null => rfl
  | bool b => rfl
  | int n => rfl
  | float q => rfl

/-- Query._elemMatch in its source shape: some element of the iterated
entry satisfies every pair of condition.items(). -/
theorem evalOp_elemMatch (re : String → String → String → Except Unit Bool)
    (c e : Value) :
    evalOp re "$elemMatch" c e =
      match pyIter e with
      | .error er => .error er
      | .ok elems =>
        anyE elems (fun el =>
          match pyItems c with
          | .error er => .error er
          | .ok ps => allE ps (fun kv => processCondition re kv.1 kv.2 el)) := by
  rw [evalOp_eq]
  cases hpy : pyIter e with
  | error er => rfl
  | ok elems =>
    simp only [bindE]
    apply anyE_congr
    intro el _
    cases c <;> try rfl
    rename_i ps
    exact allE_attach_sub ps _ _ (fun p => rfl)

/-- Query._and in its source shape. -/
theorem evalOp_and (re : String → String → String → Except Unit Bool)
    (c e : Value) :
    evalOp re "$and" c e =
      match c with
      | .list xs => allE xs (fun s => matchC re s e)
      | _ =>
        .error (.queryError "$and has been attributed incorrect argument") := by
  rw [evalOp_eq]
  cases c with
  | list xs => exact allE_attach_sub xs _ _ (fun p => rfl)
  | null => rfl
  | bool b => rfl
  | int n => rfl
  | float q => rfl
  | str s => rfl
  | dict ps => rfl

/-- Query._or in its source shape (including the source message that
names the wrong operator). -/
theorem evalOp_or (re : String → String → String → Except Unit Bool)
    (c e : Value) :
    evalOp re "$or" c e =
      match c with
      | .list xs => anyE xs (fun s => matchC re s e)
      | _ =>
        .error (.queryError "$nor has been attributed incorrect argument") := by
  rw [evalOp_eq]
  cases c with
  | list xs => exact anyE_attach_sub xs _ _ (fun p => rfl)
  | null => rfl
  | bool b => rfl
  | int n => rfl
  | float q => rfl
  | str s => rfl
  | dict ps => rfl

/-- Query._nor in its source shape. -/
theorem evalOp_nor (re : String → String → String → Except Unit Bool)
    (c e : Value) :
    evalOp re "$nor" c e =
      match c with
      | .list xs =>
        allE xs (fun s =>
          match matchC re s e with
          | .error er => .error er
          | .ok b => .ok (!b))
      | _ =>
        .error (.queryError "$nor has been attributed incorrect argument") := by
  rw [evalOp_eq]
  cases c with
  | list xs => exact allE_attach_sub xs _ _ (fun p => rfl)
  | null => rfl
  | bool b => rfl
  | int n => rfl
  | float q => rfl
  | str s => rfl
  | dict ps => rfl


/-- Soundness of the fuelled allE against allE. -/
theorem allEF_sound {α : Type} (f : α → Option (Except PyErr Bool))
    (g : α → Except PyErr Bool) (xs : List α)
    (hf : ∀ x ∈ xs, ∀ r, f x = some r → g x = r) :
    ∀ r, allEF f xs = some r → allE xs g = r := by
  induction xs with
  | nil =>
    intro r h
    simp only [allEF] at h
    cases h
    rfl
  | cons x t ih =>
    intro r h
    simp only [allEF] at h
    rcases hfx : f x with _ | rx
    · rw [hfx] at h
      cases h
    · rw [hfx] at h
      have hgx : g x = rx := hf x (by simp) rx hfx
      simp only [allE, hgx]
      rcases rx with er | b
      · cases h
        rfl
      · cases b
        · cases h
          rfl
        · exact ih (fun y hy => hf y (by simp [hy])) r h

/-- Soundness of the fuelled anyE against anyE. -/
theorem anyEF_sound {α : Type} (f : α → Option (Except PyErr Bool))
    (g : α → Except PyErr Bool) (xs : List α)
    (hf : ∀ x ∈ xs, ∀ r, f x = some r → g x = r) :
    ∀ r, anyEF f xs = some r → anyE xs g = r := by
  induction xs with
  | nil =>
    intro r h
    simp only [anyEF] at h
    cases h
    rfl
  | cons x t ih =>
    intro r h
    simp only [anyEF] at h
    rcases hfx : f x with _ | rx
    · rw [hfx] at h
      cases h
    · rw [hfx] at h
      have hgx : g x = rx := hf x (by simp) rx hfx
      simp only [anyE, hgx]
      rcases rx with er | b
      · cases h
        rfl
      · cases b
        · exact ih (fun y hy => hf y (by simp [hy])) r h
        · cases h
          rfl

/-- Soundness of the fuelled mapME against mapME. -/
theorem mapMEF_sound (f : Value → Option (Except PyErr Value))
    (g : Value → Except PyErr Value) (xs : List Value)
    (hf : ∀ x ∈ xs, ∀ r, f x = some r → g x = r) :
    ∀ r, mapMEF f xs = some r → mapME xs g = r := by
  induction xs with
  | nil =>
    intro r h
    simp only [mapMEF] at h
    cases h
    rfl
  | cons x t ih =>
    intro r h
    simp only [mapMEF] at h
    rcases hfx : f x with _ | rx
    · rw [hfx] at h
      cases h
    · rw [hfx] at h
      have hgx : g x = rx := hf x (by simp) rx hfx
      simp only [mapME, hgx]
      rcases rx with er | v
      · cases h
        rfl
      · rcases hrec : mapMEF f t with _ | rr
        · rw [hrec] at h
          cases h
        · rw [hrec] at h
          have := ih (fun y hy => hf y (by simp [hy])) rr hrec
          rw [this]
          rcases rr with er | vs
          · cases h
            rfl
          · cases h
            rfl

/-- Soundness of the fuelled extractor against Query._extract. -/
theorem extractF_sound :
    ∀ n e path r, extractF n e path = some r → extractV e path = r := by
  intro n
  induction n with
  | zero =>
    intro e path r h
    simp [extractF] at h
  | succ n ih =>
    intro e path r h
    cases path with
    | nil =>
      simp only [extractF] at h
      cases h
      exact extractV_nil e
    | cons seg rest =>
      cases e with
      | null =>
        simp only [extractF] at h
        cases h
        exact extractV_null seg rest
      | list xs =>
        simp only [extractF] at h
        rw [extractV_list]
        rcases hpi : parseInt seg.data with _ | i
        · simp only [hpi] at h ⊢
          rcases hmp : mapMEF (fun x => extractF n x (seg :: rest)) xs
            with _ | rr
          · simp only [hmp] at h
            cases h
          · simp only [hmp] at h
            have hme := mapMEF_sound _ (fun x => extractV x (seg :: rest)) xs
              (fun x _ r' h' => ih x (seg :: rest) r' h') rr hmp
            rw [hme]
            rcases rr with er | vs
            · cases h
              rfl
            · cases h
              rfl
        · simp only [hpi] at h ⊢
          rcases hpg : pyListGet xs i with _ | x
          · simp only [hpg] at h ⊢
            cases h
            rfl
          · simp only [hpg] at h ⊢
            exact ih x rest r h
      | dict ps =>
        simp only [extractF] at h
        rw [extractV_dict]
        rcases hl : lookupStr ps seg with _ | v
        · simp only [hl] at h ⊢
          cases h
          rfl
        · simp only [hl] at h ⊢
          exact ih v rest r h
      | str s =>
        simp only [extractF] at h
        cases h
        exact extractV_str seg rest s
      | bool b =>
        simp only [extractF] at h
        cases h
        exact extractV_bool seg rest b
      | int m =>
        simp only [extractF] at h
        cases h
        exact extractV_int seg rest m
      | float q =>
        simp only [extractF] at h
        cases h
        exact extractV_float seg rest q

/-- Per-key dispatch lemmas for the remaining accidental names. -/
theorem evalOp_not_implemented
    (re : String → String → String → Except Unit Bool) (c e : Value) :
    evalOp re "$not_implemented" c e = .error .notImplementedError := by
  rw [evalOp_eq]
  rfl

theorem evalOp_extract (re : String → String → String → Except Unit Bool)
    (c e : Value) :
    evalOp re "$extract" c e = (extractDyn c e).map pyTruthy := by
  rw [evalOp_eq]
  rfl

theorem evalOp_process_condition
    (re : String → String → String → Except Unit Bool) (c e : Value) :
    evalOp re "$process_condition" c e = .error .typeError := by
  rw [evalOp_eq]
  rfl

theorem evalOp_is_array_op
    (re : String → String → String → Except Unit Bool) (c e : Value) :
    evalOp re "$is_array_op" c e = .error .typeError := by
  rw [evalOp_eq]
  rfl

theorem evalOp_definition
    (re : String → String → String → Except Unit Bool) (c e : Value) :
    evalOp re "$definition" c e = .error .typeError := by
  rw [evalOp_eq]
  rfl

/-- Soundness of the AttributeError-to-QueryError conversion step. -/
theorem conv_sound (k : String) (tw : Option (Except PyErr Bool))
    (real : Except PyErr Bool)
    (hs : ∀ r', tw = some r' → real = r') :
    ∀ r, attrConvF k tw = some r → attrConv k real = r := by
  intro r h
  rcases htw : tw with _ | ri
  · rw [htw] at h
    cases h
  · rw [htw] at h
    rw [hs ri htw]
    rcases ri with er | b
    · cases er <;> (cases h; rfl)
    · cases h
      rfl

/-- Soundness of the fuelled evaluator trio against the well-founded
evaluator. -/
theorem trio_sound (re : String → String → String → Except Unit Bool) :
    ∀ n,
      (∀ c e r, matchF re n c e = some r → matchC re c e = r) ∧
      (∀ k c e r, pcF re n k c e = some r → processCondition re k c e = r) ∧
      (∀ k c e r, evalF re n k c e = some r → evalOp re k c e = r) := by
  intro n
  induction n with
  | zero =>
    refine ⟨?_, ?_, ?_⟩
    · intro c e r h
      simp [matchF] at h
    · intro k c e r h
      simp [pcF] at h
    · intro k c e r h
      simp [evalF] at h
  | succ n ih =>
    obtain ⟨ihM, ihP, ihE⟩ := ih
    refine ⟨?_, ?_, ?_⟩
    · intro c e r h
      cases c with
      | dict ps =>
        simp only [matchF] at h
        rw [matchC_dict]
        exact allEF_sound _ _ ps (fun kv _ r' h' => ihP kv.1 kv.2 e r' h') r h
      | null =>
        simp only [matchF] at h
        cases h
        exact matchC_lit re _ e rfl
      | bool b =>
        simp only [matchF] at h
        cases h
        exact matchC_lit re _ e rfl
      | int m =>
        simp only [matchF] at h
        cases h
        exact matchC_lit re _ e rfl
      | float q =>
        simp only [matchF] at h
        cases h
        exact matchC_lit re _ e rfl
      | str s =>
        simp only [matchF] at h
        cases h
        exact matchC_lit re _ e rfl
      | list xs =>
        simp only [matchF] at h
        cases h
        exact matchC_lit re _ e rfl
    · intro k c e r h
      simp only [pcF] at h
      by_cases h1 : isOpKey k = true
      · rw [if_pos h1] at h
        by_cases h2 : findOp k = true
        · rw [if_pos h2] at h
          rw [pc_op re k c e h1 h2]
          cases e with
          | list xs =>
            simp only [] at h ⊢
            by_cases h3 : isArrayOp k = true
            · rw [if_pos h3] at h ⊢
              exact conv_sound k _ _
                (fun r' h' => ihE k c (Value.list xs) r' h') r h
            · rw [if_neg h3] at h ⊢
              exact conv_sound k _ _
                (fun r' h' => anyEF_sound _ (fun en => evalOp re k c en) xs
                  (fun en _ r'' h'' => ihE k c en r'' h'') r' h') r h
          | null =>
            exact conv_sound k _ _ (fun r' h' => ihE k c _ r' h') r h
          | bool b =>
            exact conv_sound k _ _ (fun r' h' => ihE k c _ r' h') r h
          | int m =>
            exact conv_sound k _ _ (fun r' h' => ihE k c _ r' h') r h
          | float q =>
            exact conv_sound k _ _ (fun r' h' => ihE k c _ r' h') r h
          | str s =>
            exact conv_sound k _ _ (fun r' h' => ihE k c _ r' h') r h
          | dict ps =>
            exact conv_sound k _ _ (fun r' h' => ihE k c _ r' h') r h
        · rw [if_neg h2] at h
          cases h
          exact pc_unknown re k c e h1 (by simpa using h2)
      · rw [if_neg h1] at h
        rw [pc_field re k c e (by simpa using h1)]
        rcases hex : existsCheck k c e with er | b
        · simp only [hex] at h ⊢
          cases h
          rfl
        · cases b
          · simp only [hex] at h ⊢
            rcases hxf : extractF n e (splitPath k) with _ | rx
            · simp only [hxf] at h
              cases h
            · simp only [hxf] at h
              rw [extractF_sound n e (splitPath k) rx hxf]
              rcases rx with er | ex
              · cases h
                rfl
              · exact ihM c ex r h
          · simp only [hex] at h ⊢
            cases h
            rfl
    · intro k c e r h
      simp only [evalF] at h
      split at h
      · cases h
        exact evalOp_gt re c e
      · cases h
        exact evalOp_gte re c e
      · cases h
        exact evalOp_lt re c e
      · cases h
        exact evalOp_lte re c e
      · cases h
        exact evalOp_in re c e
      · cases h
        exact evalOp_nin re c e
      · cases h
        exact evalOp_ne re c e
      · -- $and
        rw [evalOp_and]
        cases c with
        | list xs =>
          exact allEF_sound _ _ xs (fun s _ r' h' => ihM s e r' h') r h
        | null => cases h; rfl
        | bool b => cases h; rfl
        | int m => cases h; rfl
        | float q => cases h; rfl
        | str s => cases h; rfl
        | dict ps => cases h; rfl
      · -- $or
        rw [evalOp_or]
        cases c with
        | list xs =>
          exact anyEF_sound _ _ xs (fun s _ r' h' => ihM s e r' h') r h
        | null => cases h; rfl
        | bool b => cases h; rfl
        | int m => cases h; rfl
        | float q => cases h; rfl
        | str s => cases h; rfl
        | dict ps => cases h; rfl
      · -- $nor
        rw [evalOp_nor]
        cases c with
        | list xs =>
          refine allEF_sound _ _ xs ?_ r h
          intro s _ r' h'
          rcases hms : matchF re n s e with _ | rs
          · rw [hms] at h'
            cases h'
          · rw [hms] at h'
            rw [ihM s e rs hms]
            rcases rs with er | b
            · cases h'
              rfl
            · cases h'
              rfl
        | null => cases h; rfl
        | bool b => cases h; rfl
        | int m => cases h; rfl
        | float q => cases h; rfl
        | str s => cases h; rfl
        | dict ps => cases h; rfl
      · -- $not
        rw [evalOp_not]
        rcases hms : matchF re n c e with _ | rs
        · rw [hms] at h
          cases h
        · rw [hms] at h
          rw [ihM c e rs hms]
          rcases rs with er | b
          · cases h
            rfl
          · cases h
            rfl
      · cases h
        exact evalOp_exists re c e
      · cases h
        exact evalOp_comment re c e
      · cases h
        exact evalOp_type re c e
      · cases h
        exact evalOp_mod re c e
      · cases h
        exact evalOp_regex re c e
      · cases h
        exact evalOp_options re c e
      · cases h
        exact evalOp_text re c e
      · cases h
        exact evalOp_where re c e
      · -- $all
        rw [evalOp_all]
        cases c with
        | list xs =>
          exact allEF_sound _ _ xs (fun it _ r' h' => ihM it e r' h') r h
        | dict ps =>
          show allE (ps.map (fun kv => Value.str kv.1))
            (fun it => matchC re it e) = r
          rw [allE_map_eq]
          exact allEF_sound _ _ ps
            (fun kv _ r' h' => ihM (Value.str kv.1) e r' h') r h
        | str s =>
          show allE (s.data.map (fun ch => Value.str (String.mk [ch])))
            (fun it => matchC re it e) = r
          rw [allE_map_eq]
          exact allEF_sound _ _ s.data
            (fun ch _ r' h' => ihM (Value.str (String.mk [ch])) e r' h') r h
        | null => cases h; rfl
        | bool b => cases h; rfl
        | int m => cases h; rfl
        | float q => cases h; rfl
      · -- $elemMatch
        rw [evalOp_elemMatch]
        rcases hpy : pyIter e with er | elems
        · rw [hpy] at h
          simp only [hpy]
          cases h
          rfl
        · rw [hpy] at h
          simp only [hpy]
          refine anyEF_sound _ _ elems ?_ r h
          intro el _ r' h'
          cases c with
          | dict ps =>
            show allE ps (fun kv => processCondition re kv.1 kv.2 el) = r'
            exact allEF_sound _ _ ps
              (fun kv _ r'' h'' => ihP kv.1 kv.2 el r'' h'') r' h'
          | null => cases h'; rfl
          | bool b => cases h'; rfl
          | int m => cases h'; rfl
          | float q => cases h'; rfl
          | str s => cases h'; rfl
          | list xs => cases h'; rfl
      · cases h
        exact evalOp_size re c e
      · -- $match
        rw [evalOp_match]
        exact ihM c e r h
      · cases h
        exact evalOp_noop re c e
      · cases h
        exact evalOp_not_implemented re c e
      · cases h
        exact evalOp_extract re c e
      · cases h
        exact evalOp_process_condition re c e
      · cases h
        exact evalOp_is_array_op re c e
      · cases h
        exact evalOp_definition re c e
      · exact Option.noConfusion h

/-- Transport of a fuelled run to Query.match. -/
theorem matchQuery_of_fuel (re : String → String → String → Except Unit Bool)
    (n : Nat) (c d : Value) (r : Except PyErr Bool)
    (h : matchF re n c d = some r) : matchQuery re c d = r :=
  (trio_sound re n).1 c d r h

/-- Transport of a fuelled run to Query._process_condition. -/
theorem pc_of_fuel (re : String → String → String → Except Unit Bool)
    (n : Nat) (k : String) (c e : Value) (r : Except PyErr Bool)
    (h : pcF re n k c e = some r) : processCondition re k c e = r :=
  (trio_sound re n).2.1 k c e r h

/-! Raise-freedom of the safe condition fragment. -/

/-- A short-circuit conjunction of raise-free evaluations is
raise-free. -/
theorem allE_ok {α : Type} (xs : List α) (f : α → Except PyErr Bool)
    (h : ∀ x ∈ xs, ∃ b, f x = Except.ok b) :
    ∃ b, allE xs f = Except.ok b := by
  induction xs with
  | nil => exact ⟨true, rfl⟩
  | cons x t ih =>
    obtain ⟨b, hb⟩ := h x (List.mem_cons_self x t)
    rw [allE, hb]
    cases b with
    | false => exact ⟨false, rfl⟩
    | true => exact ih (fun y hy => h y (List.mem_cons_of_mem x hy))

/-- A short-circuit disjunction of raise-free evaluations is
raise-free. -/
theorem anyE_ok {α : Type} (xs : List α) (f : α → Except PyErr Bool)
    (h : ∀ x ∈ xs, ∃ b, f x = Except.ok b) :
    ∃ b, anyE xs f = Except.ok b := by
  induction xs with
  | nil => exact ⟨false, rfl⟩
  | cons x t ih =>
    obtain ⟨b, hb⟩ := h x (List.mem_cons_self x t)
    rw [anyE, hb]
    cases b with
    | true => exact ⟨true, rfl⟩
    | false => exact ih (fun y hy => h y (List.mem_cons_of_mem x hy))

/-- Query._match on a non-dict condition never raises. -/
theorem matchC_lit_ok (re : String → String → String → Except Unit Bool)
    (c e : Value) (h : isDictB c = false) :
    ∃ b, matchC re c e = Except.ok b := by
  rw [matchC_lit re c e h]
  cases e <;> exact ⟨_, rfl⟩

/-- Contains returning false on a character list refutes membership. -/
theorem not_mem_of_contains_false {c : Char} {cs : List Char}
    (h : cs.contains c = false) : c ∉ cs := by
  simp_all

/-- Splitting a dot-free character list at dots keeps it whole. -/
theorem splitDots_no_dot (cs : List Char) (h : ('.') ∉ cs) :
    splitDots cs = [cs] := by
  induction cs with
  | nil => rfl
  | cons c t ih =>
    have hcne : ¬(c = '.') := by
      intro hc
      subst hc
      exact h (List.mem_cons_self _ _)
    have hmt : ('.') ∉ t := fun hm => h (List.mem_cons_of_mem c hm)
    rw [splitDots, if_neg hcne, ih hmt]

/-- A dot-free condition key splits into the single-segment path. -/
theorem splitPath_no_dot (k : String) (h : ('.') ∉ k.data) :
    splitPath k = [k] := by
  rw [splitPath, splitDots_no_dot k.data h]
  cases k with
  | mk d => rfl

/-- Member pairs of an entirely raise-free pair list are raise-free
operator pairs. -/
theorem safePairsAny_mem (ps : List (String × Value)) (kv : String × Value)
    (hp : safePairsAny ps = true) (hm : kv ∈ ps) :
    safeOpPair kv.1 kv.2 = true := by
  induction ps with
  | nil => cases hm
  | cons p t ih =>
    obtain ⟨pk, pv⟩ := p
    simp only [safePairsAny, Bool.and_eq_true] at hp
    rcases List.mem_cons.mp hm with h | h
    · subst h
      exact hp.1
    · exact ih hp.2 h

/-- Members of an entirely raise-free condition list are raise-free. -/
theorem safeListAny_mem (xs : List Value) (x : Value)
    (hp : safeListAny xs = true) (hm : x ∈ xs) : safeAny x = true := by
  induction xs with
  | nil => cases hm
  | cons y t ih =>
    simp only [safeListAny, Bool.and_eq_true] at hp
    rcases List.mem_cons.mp hm with h | h
    · subst h
      exact hp.1
    · exact ih hp.2 h

/-- Member pairs of a list of pairs raise-free against dict entries are
raise-free against dict entries. -/
theorem safePairsTop_mem (ps : List (String × Value)) (kv : String × Value)
    (hp : safePairsTop ps = true) (hm : kv ∈ ps) :
    safeTopPair kv.1 kv.2 = true := by
  induction ps with
  | nil => cases hm
  | cons p t ih =>
    obtain ⟨pk, pv⟩ := p
    simp only [safePairsTop, Bool.and_eq_true] at hp
    rcases List.mem_cons.mp hm with h | h
    · subst h
      exact hp.1
    · exact ih hp.2 h

/-- Members of a condition list raise-free against dict entries are
raise-free against dict entries. -/
theorem safeListTop_mem (xs : List Value) (x : Value)
    (hp : safeListTop xs = true) (hm : x ∈ xs) : safeTop x = true := by
  induction xs with
  | nil => cases hm
  | cons y t ih =>
    simp only [safeListTop, Bool.and_eq_true] at hp
    rcases List.mem_cons.mp hm with h | h
    · subst h
      exact hp.1
    · exact ih hp.2 h

/-- Safe operator pairs carry resolvable operator keys. -/
theorem safeOpPair_key (k : String) (v : Value) (h : safeOpPair k v = true) :
    isOpKey k = true ∧ findOp k = true := by
  unfold safeOpPair at h
  split_ifs at h with h1 h2 h3 h4 h5 h6 h7 h8
  · rcases h1 with h | h | h | h <;> subst h <;> exact ⟨by decide, by decide⟩
  · rcases h2 with h | h | h <;> subst h <;> exact ⟨by decide, by decide⟩
  · rcases h3 with h | h <;> subst h <;> exact ⟨by decide, by decide⟩
  · rcases h4 with h | h | h <;> subst h <;> exact ⟨by decide, by decide⟩
  · subst h5
    exact ⟨by decide, by decide⟩
  · subst h6
    exact ⟨by decide, by decide⟩
  · subst h7
    exact ⟨by decide, by decide⟩
  · subst h8
    exact ⟨by decide, by decide⟩

/-- Query._gt never raises when the condition is numeric. -/
theorem gtOp_ok (c e : Value) (qc : Rat) (hc : numVal c = some qc) :
    ∃ b, gtOp c e = Except.ok b := by
  unfold gtOp
  cases he : numVal e with
  | none => exact ⟨false, rfl⟩
  | some qe =>
    rw [hc]
    exact ⟨_, rfl⟩

/-- Query._gte never raises when the condition is numeric. -/
theorem gteOp_ok (c e : Value) (qc : Rat) (hc : numVal c = some qc) :
    ∃ b, gteOp c e = Except.ok b := by
  unfold gteOp
  cases he : numVal e with
  | none => exact ⟨false, rfl⟩
  | some qe =>
    rw [hc]
    exact ⟨_, rfl⟩

/-- Query._lt never raises when the condition is numeric. -/
theorem ltOp_ok (c e : Value) (qc : Rat) (hc : numVal c = some qc) :
    ∃ b, ltOp c e = Except.ok b := by
  unfold ltOp
  cases he : numVal e with
  | none => exact ⟨false, rfl⟩
  | some qe =>
    rw [hc]
    exact ⟨_, rfl⟩

/-- Query._lte never raises when the condition is numeric. -/
theorem lteOp_ok (c e : Value) (qc : Rat) (hc : numVal c = some qc) :
    ∃ b, lteOp c e = Except.ok b := by
  unfold lteOp
  cases he : numVal e with
  | none => exact ⟨false, rfl⟩
  | some qe =>
    rw [hc]
    exact ⟨_, rfl⟩

/-- The type checks of known BSON codes never raise. -/
theorem typeCode_known (m : Int) (e : Value) (h : knownCode m = true) :
    ∃ b, typeCode m e = Except.ok b := by
  simp only [knownCode, decide_eq_true_eq] at h
  rcases h with h|h|h|h|h|h|h|h|h|h|h|h|h|h|h <;> subst h <;> exact ⟨_, rfl⟩

/-- Negating an evaluation that succeeded succeeds. -/
theorem negE_ok (r : Except PyErr Bool) (b0 : Bool) (h : r = Except.ok b0) :
    (match r with
     | Except.error er => Except.error er
     | Except.ok b => Except.ok (!b)) = Except.ok (!b0) := by
  subst h
  rfl

/-- Operator dispatch never raises when the selected operator is
raise-free at every entry: the distribution over list entries and the
AttributeError conversion preserve successful results. -/
theorem pc_op_ok (re : String → String → String → Except Unit Bool)
    (k : String) (c e : Value) (hok : isOpKey k = true)
    (hfd : findOp k = true)
    (hall : ∀ e2, ∃ b, evalOp re k c e2 = Except.ok b) :
    ∃ b, processCondition re k c e = Except.ok b := by
  rw [pc_op re k c e hok hfd]
  cases e with
  | list xs =>
    simp only []
    by_cases harr : isArrayOp k = true
    · rw [if_pos harr]
      obtain ⟨b, hb⟩ := hall (Value.list xs)
      rw [hb]
      exact ⟨b, rfl⟩
    · rw [if_neg harr]
      obtain ⟨b, hb⟩ := anyE_ok xs (fun en => evalOp re k c en)
        (fun en _ => hall en)
      rw [hb]
      exact ⟨b, rfl⟩
  | null =>
    obtain ⟨b, hb⟩ := hall Value.null
    simp only []
    rw [hb]
    exact ⟨b, rfl⟩
  | bool b0 =>
    obtain ⟨b, hb⟩ := hall (Value.bool b0)
    simp only []
    rw [hb]
    exact ⟨b, rfl⟩
  | int m =>
    obtain ⟨b, hb⟩ := hall (Value.int m)
    simp only []
    rw [hb]
    exact ⟨b, rfl⟩
  | float q =>
    obtain ⟨b, hb⟩ := hall (Value.float q)
    simp only []
    rw [hb]
    exact ⟨b, rfl⟩
  | str s =>
    obtain ⟨b, hb⟩ := hall (Value.str s)
    simp only []
    rw [hb]
    exact ⟨b, rfl⟩
  | dict ps =>
    obtain ⟨b, hb⟩ := hall (Value.dict ps)
    simp only []
    rw [hb]
    exact ⟨b, rfl⟩

/-- Operator dispatch at a dict entry never raises when the selected
operator succeeds at that entry (no distribution happens). -/
theorem pc_op_ok_dict (re : String → String → String → Except Unit Bool)
    (k : String) (c : Value) (d : List (String × Value))
    (hok : isOpKey k = true) (hfd : findOp k = true)
    (h1 : ∃ b, evalOp re k c (Value.dict d) = Except.ok b) :
    ∃ b, processCondition re k c (Value.dict d) = Except.ok b := by
  rw [pc_op re k c (Value.dict d) hok hfd]
  obtain ⟨b, hb⟩ := h1
  simp only []
  rw [hb]
  exact ⟨b, rfl⟩

/-- Raise-freedom of the safe fragment, proved for the evaluator stages
simultaneously by strong induction on the size of the condition: the
stages are matching a raise-free condition against any entry, the
operator bodies and operator dispatch of a raise-free operator pair
against any entry, and matching and dispatch of conditions raise-free
against dict entries at a dict document. -/
theorem safe_stages (n : Nat) :
    ∀ (re : String → String → String → Except Unit Bool),
    (∀ c e, sizeOf c ≤ n → safeAny c = true →
      ∃ b, matchC re c e = Except.ok b) ∧
    (∀ k v e, sizeOf v ≤ n → safeOpPair k v = true →
      ∃ b, evalOp re k v e = Except.ok b) ∧
    (∀ k v e, sizeOf v ≤ n → safeOpPair k v = true →
      ∃ b, processCondition re k v e = Except.ok b) ∧
    (∀ c d, sizeOf c ≤ n → safeTop c = true →
      ∃ b, matchC re c (Value.dict d) = Except.ok b) ∧
    (∀ k v d, sizeOf v ≤ n → safeTopPair k v = true →
      ∃ b, processCondition re k v (Value.dict d) = Except.ok b) := by
  induction n using Nat.strong_induction_on with
  | _ n ih =>
  intro re
  have hA : ∀ c e, sizeOf c ≤ n → safeAny c = true →
      ∃ b, matchC re c e = Except.ok b := by
    intro c e hn hs
    cases c with
    | dict ps =>
      rw [matchC_dict]
      apply allE_ok
      intro kv hm
      obtain ⟨kk, kv2⟩ := kv
      have hp : safeOpPair kk kv2 = true :=
        safePairsAny_mem ps (kk, kv2) hs hm
      have hsz : sizeOf kv2 < n := by
        have h1 := List.sizeOf_lt_of_mem hm
        simp only [Prod.mk.sizeOf_spec] at h1
        simp only [Value.dict.sizeOf_spec] at hn
        omega
      exact (ih (sizeOf kv2) hsz re).2.2.1 kk kv2 e (le_refl _) hp
    | null => exact matchC_lit_ok re Value.null e rfl
    | bool b => exact matchC_lit_ok re (Value.bool b) e rfl
    | int m => exact matchC_lit_ok re (Value.int m) e rfl
    | float q => exact matchC_lit_ok re (Value.float q) e rfl
    | str s => exact matchC_lit_ok re (Value.str s) e rfl
    | list xs => exact matchC_lit_ok re (Value.list xs) e rfl
  have hB : ∀ k v e, sizeOf v ≤ n → safeOpPair k v = true →
      ∃ b, evalOp re k v e = Except.ok b := by
    intro k v e hn hs
    unfold safeOpPair at hs
    split_ifs at hs with h1 h2 h3 h4 h5 h6 h7 h8
    · rcases h1 with h | h | h | h
      · subst h
        obtain ⟨qc, hqc⟩ := Option.isSome_iff_exists.mp hs
        rw [evalOp_gt]
        exact gtOp_ok v e qc hqc
      · subst h
        obtain ⟨qc, hqc⟩ := Option.isSome_iff_exists.mp hs
        rw [evalOp_gte]
        exact gteOp_ok v e qc hqc
      · subst h
        obtain ⟨qc, hqc⟩ := Option.isSome_iff_exists.mp hs
        rw [evalOp_lt]
        exact ltOp_ok v e qc hqc
      · subst h
        obtain ⟨qc, hqc⟩ := Option.isSome_iff_exists.mp hs
        rw [evalOp_lte]
        exact lteOp_ok v e qc hqc
    · rcases h2 with h | h | h
      · subst h
        rw [evalOp_ne]
        exact ⟨_, rfl⟩
      · subst h
        rw [evalOp_exists]
        exact ⟨true, rfl⟩
      · subst h
        rw [evalOp_comment]
        exact ⟨true, rfl⟩
    · cases v with
      | list xs =>
        rcases h3 with h | h
        · subst h
          rw [evalOp_in]
          exact ⟨_, rfl⟩
        · subst h
          rw [evalOp_nin]
          exact ⟨_, rfl⟩
      | null => simp at hs
      | bool b => simp at hs
      | int m => simp at hs
      | float q => simp at hs
      | str s => simp at hs
      | dict ps => simp at hs
    · cases v with
      | list xs =>
        have hxs : safeListAny xs = true := hs
        rcases h4 with h | h | h
        · subst h
          rw [evalOp_and]
          simp only []
          apply allE_ok
          intro x hm
          have hsx : sizeOf x < n := by
            have hx1 := List.sizeOf_lt_of_mem hm
            simp only [Value.list.sizeOf_spec] at hn
            omega
          exact (ih (sizeOf x) hsx re).1 x e (le_refl _)
            (safeListAny_mem xs x hxs hm)
        · subst h
          rw [evalOp_or]
          simp only []
          apply anyE_ok
          intro x hm
          have hsx : sizeOf x < n := by
            have hx1 := List.sizeOf_lt_of_mem hm
            simp only [Value.list.sizeOf_spec] at hn
            omega
          exact (ih (sizeOf x) hsx re).1 x e (le_refl _)
            (safeListAny_mem xs x hxs hm)
        · subst h
          rw [evalOp_nor]
          simp only []
          apply allE_ok
          intro x hm
          have hsx : sizeOf x < n := by
            have hx1 := List.sizeOf_lt_of_mem hm
            simp only [Value.list.sizeOf_spec] at hn
            omega
          obtain ⟨b0, hb0⟩ := (ih (sizeOf x) hsx re).1 x e (le_refl _)
            (safeListAny_mem xs x hxs hm)
          exact ⟨!b0, negE_ok (matchC re x e) b0 hb0⟩
      | null => simp at hs
      | bool b => simp at hs
      | int m => simp at hs
      | float q => simp at hs
      | str s => simp at hs
      | dict ps => simp at hs
    · subst h5
      rw [evalOp_not]
      have hsa : safeAny v = true := by
        cases v
        case dict ps => exact hs
        all_goals rfl
      obtain ⟨b0, hb0⟩ := hA v e hn hsa
      refine ⟨!b0, ?_⟩
      rw [hb0]
      rfl
    · subst h6
      cases v with
      | int m =>
        rw [evalOp_type]
        have hk : knownCode m = true := hs
        simp only [typeOp, numVal]
        rw [if_pos (Rat.den_intCast m), Rat.num_intCast]
        exact typeCode_known m e hk
      | null => simp at hs
      | bool b => simp at hs
      | float q => simp at hs
      | str s => simp at hs
      | list xs => simp at hs
      | dict ps => simp at hs
    · subst h7
      cases v with
      | int m =>
        rw [evalOp_size]
        cases e <;> exact ⟨_, rfl⟩
      | null => simp at hs
      | bool b => simp at hs
      | float q => simp at hs
      | str s => simp at hs
      | list xs => simp at hs
      | dict ps => simp at hs
    · subst h8
      cases v with
      | list xs =>
        rw [evalOp_all]
        simp only [pyIter]
        apply allE_ok
        intro x hm
        have hsx : sizeOf x < n := by
          have hx1 := List.sizeOf_lt_of_mem hm
          simp only [Value.list.sizeOf_spec] at hn
          omega
        exact (ih (sizeOf x) hsx re).1 x e (le_refl _)
          (safeListAny_mem xs x hs hm)
      | null => simp at hs
      | bool b => simp at hs
      | int m => simp at hs
      | float q => simp at hs
      | str s => simp at hs
      | dict ps => simp at hs
  have hC : ∀ k v e, sizeOf v ≤ n → safeOpPair k v = true →
      ∃ b, processCondition re k v e = Except.ok b := by
    intro k v e hn hs
    obtain ⟨hok, hfd⟩ := safeOpPair_key k v hs
    exact pc_op_ok re k v e hok hfd (fun e2 => hB k v e2 hn hs)
  have hD : ∀ c d, sizeOf c ≤ n → safeTop c = true →
      ∃ b, matchC re c (Value.dict d) = Except.ok b := by
    intro c d hn hs
    cases c with
    | dict ps =>
      rw [matchC_dict]
      apply allE_ok
      intro kv hm
      obtain ⟨kk, kv2⟩ := kv
      have hp : safeTopPair kk kv2 = true :=
        safePairsTop_mem ps (kk, kv2) hs hm
      have hsz : sizeOf kv2 < n := by
        have h1 := List.sizeOf_lt_of_mem hm
        simp only [Prod.mk.sizeOf_spec] at h1
        simp only [Value.dict.sizeOf_spec] at hn
        omega
      exact (ih (sizeOf kv2) hsz re).2.2.2.2 kk kv2 d (le_refl _) hp
    | null => exact matchC_lit_ok re Value.null (Value.dict d) rfl
    | bool b => exact matchC_lit_ok re (Value.bool b) (Value.dict d) rfl
    | int m => exact matchC_lit_ok re (Value.int m) (Value.dict d) rfl
    | float q => exact matchC_lit_ok re (Value.float q) (Value.dict d) rfl
    | str s => exact matchC_lit_ok re (Value.str s) (Value.dict d) rfl
    | list xs => exact matchC_lit_ok re (Value.list xs) (Value.dict d) rfl
  have hE : ∀ k v d, sizeOf v ≤ n → safeTopPair k v = true →
      ∃ b, processCondition re k v (Value.dict d) = Except.ok b := by
    intro k v d hn hs
    unfold safeTopPair at hs
    split_ifs at hs with h1 h2 h3
    · cases v with
      | list xs =>
        have hxs : safeListTop xs = true := hs
        rcases h2 with h | h | h
        · subst h
          apply pc_op_ok_dict re "$and" (Value.list xs) d (by decide) (by decide)
          rw [evalOp_and]
          simp only []
          apply allE_ok
          intro x hm
          have hsx : sizeOf x < n := by
            have hx1 := List.sizeOf_lt_of_mem hm
            simp only [Value.list.sizeOf_spec] at hn
            omega
          exact (ih (sizeOf x) hsx re).2.2.2.1 x d (le_refl _)
            (safeListTop_mem xs x hxs hm)
        · subst h
          apply pc_op_ok_dict re "$or" (Value.list xs) d (by decide) (by decide)
          rw [evalOp_or]
          simp only []
          apply anyE_ok
          intro x hm
          have hsx : sizeOf x < n := by
            have hx1 := List.sizeOf_lt_of_mem hm
            simp only [Value.list.sizeOf_spec] at hn
            omega
          exact (ih (sizeOf x) hsx re).2.2.2.1 x d (le_refl _)
            (safeListTop_mem xs x hxs hm)
        · subst h
          apply pc_op_ok_dict re "$nor" (Value.list xs) d (by decide) (by decide)
          rw [evalOp_nor]
          simp only []
          apply allE_ok
          intro x hm
          have hsx : sizeOf x < n := by
            have hx1 := List.sizeOf_lt_of_mem hm
            simp only [Value.list.sizeOf_spec] at hn
            omega
          obtain ⟨b0, hb0⟩ := (ih (sizeOf x) hsx re).2.2.2.1 x d (le_refl _)
            (safeListTop_mem xs x hxs hm)
          exact ⟨!b0, negE_ok (matchC re x (Value.dict d)) b0 hb0⟩
      | null => simp at hs
      | bool b => simp at hs
      | int m => simp at hs
      | float q => simp at hs
      | str s => simp at hs
      | dict ps => simp at hs
    · subst h3
      apply pc_op_ok_dict re "$not" v d (by decide) (by decide)
      rw [evalOp_not]
      have hst : safeTop v = true := by
        cases v
        case dict ps => exact hs
        all_goals rfl
      obtain ⟨b0, hb0⟩ := hD v d hn hst
      refine ⟨!b0, ?_⟩
      rw [hb0]
      rfl
    · exact hC k v (Value.dict d) hn hs
    · rw [Bool.and_eq_true] at hs
      obtain ⟨hnds, hsa⟩ := hs
      have h1f : isOpKey k = false := by
        cases hk : isOpKey k with
        | false => rfl
        | true => exact absurd hk h1
      have hnd : k.data.contains '.' = false := by
        rw [Bool.not_eq_true'] at hnds
        exact hnds
      have hmem : ('.') ∉ k.data := not_mem_of_contains_false hnd
      rw [pc_field re k v (Value.dict d) h1f]
      have hex : ∃ g, existsCheck k v (Value.dict d) = Except.ok g := by
        cases v with
        | dict ps =>
          simp only [existsCheck]
          cases hlk : lookupStr ps "$exists" with
          | none => exact ⟨false, rfl⟩
          | some x => exact ⟨_, rfl⟩
        | null => exact ⟨false, rfl⟩
        | bool b => exact ⟨false, rfl⟩
        | int m => exact ⟨false, rfl⟩
        | float q => exact ⟨false, rfl⟩
        | str s => exact ⟨false, rfl⟩
        | list xs => exact ⟨false, rfl⟩
      obtain ⟨g, hg⟩ := hex
      rw [hg]
      cases g with
      | true => exact ⟨false, rfl⟩
      | false =>
        simp only []
        rw [splitPath_no_dot k hmem, extractV_dict]
        cases hlk : lookupStr d k with
        | some w =>
          simp only []
          rw [extractV_nil]
          exact hA v w hn hsa
        | none =>
          simp only []
          exact hA v (Value.dict d) hn hsa
  exact ⟨hA, hB, hC, hD, hE⟩

/-! Claim theorems. -/

/-- C1 (amended): a condition key starting with the operator marker
raises the unsupported-operator QueryError when prefixing its remainder
with an underscore resolves no attribute of the Query class; when it
does resolve, the dispatched evaluation runs and its result is returned
with an escaping AttributeError converted into the very same
QueryError, so the error does not characterize unresolved names: keys
colliding with internal attributes (such as the dollar-prefixed match
or noop) are dispatched instead of raising, while the resolvable
dollar-elemMatch with a non-dict condition and a list entry raises the
unsupported-operator QueryError through the conversion. -/
theorem C1_unknown_operator_raises
    (re : String → String → String → Except Unit Bool) (k : String)
    (c e : Value) (h1 : isOpKey k = true) :
    (findOp k = false →
      processCondition re k c e =
        .error (.queryError (k ++ " operator is not supported"))) ∧
    (findOp k = true →
      processCondition re k c e =
        attrConv k
          (match e with
           | .list xs =>
             if isArrayOp k then evalOp re k c e
             else anyE xs (fun en => evalOp re k c en)
           | _ => evalOp re k c e)) ∧
    processCondition noRe "$elemMatch" (.int 5) (.list [.int 1]) =
      .error (.queryError ("$elemMatch" ++ " operator is not supported")) := by
  refine ⟨fun h2 => pc_unknown re k c e h1 h2, fun h2 => ?_, ?_⟩
  · rw [pc_op re k c e h1 h2]
    rfl
  · exact pc_of_fuel noRe 5 "$elemMatch" (.int 5) (.list [.int 1]) _ (by decide)

/-- C1 witness: the dollar-bogus operator resolves no attribute and
raises the unsupported-operator QueryError. -/
theorem C1_witness :
    processCondition noRe "$bogus" (.int 1) (.int 1) =
      .error (.queryError ("$bogus" ++ " operator is not supported")) :=
  (C1_unknown_operator_raises noRe "$bogus" (.int 1) (.int 1) (by decide)).1
    (by decide)

/-- C1 counterexample: the key dollar-match is not in the documented
operator table, yet it dispatches to the internal Query._match method
and the query evaluates to True instead of raising a MatchError. -/
theorem C1_counterexample :
    matchQuery noRe (.dict [("a", .dict [("$match", .int 1)])])
      (.dict [("a", .int 1)]) = .ok true :=
  matchQuery_of_fuel noRe 10 _ _ _ (by decide)

/-- C2 counterexample: the condition with dollar-mod is not malformed in
any of the enumerated ways, yet matching it against the empty document
raises a TypeError (the unresolved entry, a dict, is taken modulo 2)
rather than degrading to false. -/
theorem C2_counterexample :
    matchQuery noRe (.dict [("a", .dict [("$mod", .list [.int 2, .int 0])])])
      (.dict []) = .error .typeError :=
  matchQuery_of_fuel noRe 10 _ _ _ (by decide)

/-- C2 (amended): the raise-free guarantee holds on the fragment of
conditions described by safeTop, evaluated against dict documents:
comparisons with numeric arguments, ne, in and nin with list arguments,
exists, comment, type with a known integer code, size with an int
argument, the logical combinators and all over the fragment, and
dot-free plain field keys with sub-conditions from the any-entry
fragment.  For every such condition, match on any dict document returns
a boolean and never raises. -/
theorem C2_safe_fragment_total
    (re : String → String → String → Except Unit Bool)
    (c : Value) (d : List (String × Value)) (h : safeTop c = true) :
    ∃ b, matchQuery re c (Value.dict d) = Except.ok b :=
  (safe_stages (sizeOf c) re).2.2.2.1 c d (le_refl _) h

/-- C2 witness: a gt comparison under a plain key is in the safe
fragment, and matching it against the empty document succeeds. -/
theorem C2_witness :
    safeTop (Value.dict [("a", Value.dict [("$gt", Value.int 0)])]) = true ∧
    ∃ b, matchQuery noRe
      (Value.dict [("a", Value.dict [("$gt", Value.int 0)])])
      (Value.dict []) = Except.ok b :=
  ⟨by decide, C2_safe_fragment_total noRe
    (Value.dict [("a", Value.dict [("$gt", Value.int 0)])]) [] (by decide)⟩

/-- C3 (amended): for a plain key whose sub-condition contains a
dollar-exists pair, the gate compares the pair value with the presence
of the raw key in the dict entry under Python equality (so booleans
compare numerically: a value of 2 fails against an absent key even
though 2 is not True); on failure the condition is False without path
extraction, otherwise extraction and matching proceed.  The two spec
examples hold. -/
theorem C3_exists_gate :
    (∀ (re : String → String → String → Except Unit Bool) (k : String)
      (ps : List (String × Value)) (x : Value) (d : List (String × Value)),
      isOpKey k = false → lookupStr ps "$exists" = some x →
      processCondition re k (.dict ps) (.dict d) =
        if pyEq x (.bool (hasKeyB d k)) then
          (match extractV (.dict d) (splitPath k) with
           | .error er => .error er
           | .ok ex => matchC re (.dict ps) ex)
        else .ok false) ∧
    matchQuery noRe (.dict [("a", .dict [("$exists", .bool true)])])
      (.dict [("a", .null)]) = .ok true ∧
    matchQuery noRe (.dict [("a", .dict [("$exists", .bool true)])])
      (.dict [("b", .int 1)]) = .ok false := by
  refine ⟨?_, ?_, ?_⟩
  · intro re k ps x d h1 h2
    rw [pc_field re k _ _ h1]
    simp only [existsCheck, h2, pyIn]
    by_cases hx : pyEq x (.bool (hasKeyB d k)) = true
    · rw [if_pos hx]
      simp only [pyNe, hasKeyB] at hx ⊢
      rw [hx]
      rfl
    · rw [if_neg hx]
      simp only [pyNe, hasKeyB] at hx ⊢
      rw [Bool.not_eq_true] at hx
      rw [hx]
      rfl
  · exact matchQuery_of_fuel noRe 10 _ _ _ (by decide)
  · exact matchQuery_of_fuel noRe 10 _ _ _ (by decide)

/-- C3 witness: the gate theorem applied to the key a, the
sub-condition containing dollar-exists mapped to True, and the document
mapping a to null. -/
theorem C3_witness :
    processCondition noRe "a" (.dict [("$exists", .bool true)])
      (.dict [("a", .null)]) =
      if pyEq (.bool true) (.bool (hasKeyB [("a", Value.null)] "a")) then
        (match extractV (.dict [("a", Value.null)]) (splitPath "a") with
         | .error er => .error er
         | .ok ex => matchC noRe (.dict [("$exists", .bool true)]) ex)
      else .ok false :=
  C3_exists_gate.1 noRe "a" [("$exists", .bool true)] (.bool true)
    [("a", Value.null)] (by decide) rfl

/-- C3 counterexample: with the sub-condition mapping dollar-exists to
2 and an absent key, the claimed formulation (2 == True, equal to
key-absent False, so the gate passes and the no-op operator then gives
True) predicts a match, but the engine compares 2 against False under
Python equality and returns False. -/
theorem C3_counterexample :
    matchQuery noRe (.dict [("a", .dict [("$exists", .int 2)])])
      (.dict []) = .ok false :=
  matchQuery_of_fuel noRe 10 _ _ _ (by decide)

/-- C4 (amended): dispatching dollar-exists directly through
process_condition reaches the no-op operator body, but a list entry
first distributes existentially over its elements, so the result is
True for every entry except the empty list, for which it is False. -/
theorem C4_exists_direct (re : String → String → String → Except Unit Bool)
    (c e : Value) :
    processCondition re "$exists" c e =
      .ok (match e with | Value.list [] => false | _ => true) := by
  rw [pc_op re "$exists" c e (by decide) (by decide)]
  cases e with
  | list xs =>
    cases xs with
    | nil => rfl
    | cons x t =>
      simp only []
      rw [if_neg (by decide)]
      simp only [anyE, evalOp_exists]
  | null => simp only [evalOp_exists]
  | bool b => simp only [evalOp_exists]
  | int m => simp only [evalOp_exists]
  | float q => simp only [evalOp_exists]
  | str s => simp only [evalOp_exists]
  | dict ps => simp only [evalOp_exists]

/-- C4 counterexample: dispatching dollar-exists directly on the empty
list entry returns False, not True, because existential distribution
over zero elements is False. -/
theorem C4_counterexample :
    processCondition noRe "$exists" (.bool true) (.list []) = .ok false :=
  pc_of_fuel noRe 5 _ _ _ _ (by decide)

/-- C5 (amended): each comparison operator returns False for every
non-numeric entry without examining the condition, returns the ordering
of the numeric values when both entry and condition are numeric, and
raises TypeError when the entry is numeric but the condition is not (so
the operators are not raise-free for every condition value). -/
theorem C5_comparison_characterization (c e : Value) :
    (numVal e = none →
      gtOp c e = .ok false ∧ gteOp c e = .ok false ∧
      ltOp c e = .ok false ∧ lteOp c e = .ok false) ∧
    (∀ qc qe, numVal c = some qc → numVal e = some qe →
      gtOp c e = .ok (decide (qe > qc)) ∧
      gteOp c e = .ok (decide (qe ≥ qc)) ∧
      ltOp c e = .ok (decide (qe < qc)) ∧
      lteOp c e = .ok (decide (qe ≤ qc))) ∧
    (∀ qe, numVal c = none → numVal e = some qe →
      gtOp c e = .error .typeError ∧ gteOp c e = .error .typeError ∧
      ltOp c e = .error .typeError ∧ lteOp c e = .error .typeError) := by
  refine ⟨?_, ?_, ?_⟩
  · intro hne
    simp [gtOp, gteOp, ltOp, lteOp, hne]
  · intro qc qe hc he
    simp [gtOp, gteOp, ltOp, lteOp, hc, he]
  · intro qe hc he
    simp [gtOp, gteOp, ltOp, lteOp, hc, he]

/-- C5 witness: the characterization applied at condition 5 and entry
7. -/
theorem C5_witness :
    gtOp (.int 5) (.int 7) = .ok (decide ((7 : Rat) > (5 : Rat))) :=
  ((C5_comparison_characterization (.int 5) (.int 7)).2.1 5 7 (by decide)
    (by decide)).1

/-- C5 counterexample: with a numeric entry and a non-numeric
condition, dollar-gt raises TypeError instead of never raising. -/
theorem C5_counterexample :
    gtOp (.str "x") (.int 7) = .error .typeError := by decide

/-- C6 (amended): the dollar-regex operator checks the entry type
first: every non-string entry gives False regardless of the condition;
only for a string entry does a non-string condition, a condition not
shaped as a slash-delimited pattern with at most four flags from i, m,
s, x, or a failing compilation raise a QueryError, and a valid literal
searches the compiled pattern. -/
theorem C6_regex_characterization
    (re : String → String → String → Except Unit Bool) (c e : Value) :
    (isStrB e = false → regexOp re c e = .ok false) ∧
    (∀ es, e = .str es → isStrB c = false →
      regexOp re c e =
        .error (.queryError
          "regex is not a regular expression and should be a string")) ∧
    (∀ es cs, e = .str es → c = .str cs →
      regexOp re c e =
        match parseRegexLit cs with
        | some (pat, flags) =>
          (match re pat flags es with
           | .ok b => .ok b
           | .error _ => .error (.queryError "regex failed to execute"))
        | none =>
          .error (.queryError
            "regex is not using a known regular expression syntax")) := by
  refine ⟨?_, ?_, ?_⟩
  · intro hne
    cases e <;> simp [isStrB] at hne ⊢ <;> rfl
  · intro es he hc
    subst he
    cases c <;> simp [isStrB] at hc ⊢ <;> rfl
  · intro es cs he hc
    subst he
    subst hc
    rfl

/-- C6 witness: the regex literal of the spec example parses, and with
a compiled pattern that matches, the operator returns True on the
string entry; the malformed literal raises the QueryError. -/
theorem C6_witness :
    regexOp reTrue (.str "/^ab/i") (.str "ABC") = .ok true ∧
    regexOp reTrue (.str "notregex") (.str "ABC") =
      .error (.queryError
        "regex is not using a known regular expression syntax") := by
  constructor
  · have h := (C6_regex_characterization reTrue (.str "/^ab/i")
      (.str "ABC")).2.2 "ABC" "/^ab/i" rfl rfl
    rw [h]
    decide
  · have h := (C6_regex_characterization reTrue (.str "notregex")
      (.str "ABC")).2.2 "ABC" "notregex" rfl rfl
    rw [h]
    decide

/-- C6 counterexample: a non-string condition against a non-string
entry returns False instead of raising, because the entry-type test
precedes condition validation. -/
theorem C6_counterexample :
    regexOp noRe (.int 123) (.int 5) = .ok false := by decide

/-- C7 (confirmed): an integer-parsing head segment whose index is out
of range for the list entry makes extraction fail with IndexError, and
the error propagates through match instead of being swallowed. -/
theorem C7_index_out_of_range :
    (∀ (xs : List Value) (seg : String) (rest : List String) (i : Int),
      parseInt seg.data = some i →
      (i < -(xs.length : Int) ∨ (xs.length : Int) ≤ i) →
      extractV (.list xs) (seg :: rest) = .error .indexError) ∧
    matchQuery noRe (.dict [("a.1", .int 1)]) (.dict [("a", .list [])]) =
      .error .indexError := by
  constructor
  · intro xs seg rest i hpi hoor
    rw [extractV_list]
    simp only [hpi]
    have hpg : pyListGet xs i = none := by
      unfold pyListGet
      rw [if_neg (by omega), if_neg (by omega)]
    simp only [hpg]
  · exact matchQuery_of_fuel noRe 10 _ _ _ (by decide)

/-- C7 witness: index 1 into the empty list is out of range and the
extraction raises IndexError. -/
theorem C7_witness :
    extractV (.list []) ["1"] = .error .indexError :=
  C7_index_out_of_range.1 [] "1" [] 1 (by decide) (by decide)

/-- C8 (confirmed): a non-integer head segment distributes the full
path over the elements of a list entry, and together with membership
matching this makes the dotted query of the spec example match a list
of dicts by field name. -/
theorem C8_distribution :
    (∀ (xs : List Value) (seg : String) (rest : List String),
      parseInt seg.data = none →
      extractV (.list xs) (seg :: rest) =
        match mapME xs (fun x => extractV x (seg :: rest)) with
        | .error er => .error er
        | .ok vs => .ok (.list vs)) ∧
    matchQuery noRe (.dict [("items.name", .str "x")])
      (.dict [("items", .list [.dict [("name", .str "y")],
        .dict [("name", .str "x")]])]) = .ok true := by
  constructor
  · intro xs seg rest hpi
    rw [extractV_list]
    simp only [hpi]
  · exact matchQuery_of_fuel noRe 10 _ _ _ (by decide)

/-- C8 witness: the distribution equation applied to the segment name,
which does not parse as an integer. -/
theorem C8_witness :
    extractV (.list [.dict [("name", .str "x")]]) ["name"] =
      match mapME [.dict [("name", .str "x")]]
        (fun x => extractV x ["name"]) with
      | .error er => .error er
      | .ok vs => .ok (.list vs) :=
  C8_distribution.1 [.dict [("name", .str "x")]] "name" [] (by decide)

/-- C9 (confirmed): the empty dict condition matches every document:
the conjunction over zero pairs is vacuously true. -/
theorem C9_empty_condition
    (re : String → String → String → Except Unit Bool) (d : Value) :
    matchQuery re (.dict []) d = .ok true :=
  (matchC_dict re [] d).trans rfl

/-- C10 (confirmed): the comparison operators treat a boolean entry as
the number 1 or 0 (isinstance of Number holds for bool), so they behave
exactly as on the corresponding integer entry, and the spec example
with dollar-gt 0 matches the entry True. -/
theorem C10_bool_entries_numeric :
    (∀ (c : Value) (b : Bool),
      gtOp c (.bool b) = gtOp c (.int (cond b 1 0)) ∧
      gteOp c (.bool b) = gteOp c (.int (cond b 1 0)) ∧
      ltOp c (.bool b) = ltOp c (.int (cond b 1 0)) ∧
      lteOp c (.bool b) = lteOp c (.int (cond b 1 0))) ∧
    matchQuery noRe (.dict [("a", .dict [("$gt", .int 0)])])
      (.dict [("a", .bool true)]) = .ok true := by
  constructor
  · intro c b
    cases b <;>
      refine ⟨?_, ?_, ?_, ?_⟩ <;>
      simp [gtOp, gteOp, ltOp, lteOp, numVal]
  · exact matchQuery_of_fuel noRe 10 _ _ _ (by decide)

end MQ
